import Mathlib

/-!
Shallow embedding of the core of the `repo-statistics` package:
file classification (`utils.get_file_type`), commit parsing
(`commits.parse_commits`), time-window bucketing
(`timeseries.get_periods_changed`), distribution statistics
(`timeseries.compute_timeseries_metrics`, `_compute_entropy`), the
contributor absence factor (`contributors.compute_contributor_absence_factor`)
and the analysis guard in `main._analyze_repository`.

Timestamps are modelled as integers (e.g. epoch microseconds), time spans as
integers with exact rational division where the Python code divides
`timedelta`s, and Python `float` statistics as real numbers.
-/

namespace RepoStatistics

/-- The closed category set of `constants.FileTypes`:
programming, markup, prose, data, unknown. -/
inductive FileType where
  | programming
  | markup
  | prose
  | data
  | unknown
deriving DecidableEq, Repr, Inhabited

/-- Priority order used by `utils.get_file_type` when several distinct
categories match an extension. -/
def priorityOrder : List FileType :=
  [FileType.prose, FileType.data, FileType.markup, FileType.programming]

/-- Model of Python `str.lower()`. -/
def strLower (s : String) : String :=
  (s.toList.map Char.toLower).asString

/-- Split a character list on a separator character (the pieces between
separators, empty pieces included). -/
def splitOnChar (cs : List Char) (sep : Char) : List (List Char) :=
  match cs with
  | [] => [[]]
  | c :: rest =>
    match splitOnChar rest sep with
    | [] => if c = sep then [[], [c]] else [[c]]
    | h :: t => if c = sep then [] :: h :: t else (c :: h) :: t

/-- Path components as produced by `pathlib` parsing: split on `/`,
dropping empty components and `.` components. -/
def pathComponents (s : String) : List String :=
  ((splitOnChar s.toList '/').map List.asString).filter
    (fun p => p != "" && p != ".")

/-- Model of Python `Path(fp).name`: the final path component
(empty string when there is none). -/
def pathName (s : String) : String :=
  (pathComponents s).getLast?.getD ""

/-- Index of the last `.` in a character list (Python `str.rfind`),
`none` when absent. -/
def lastDotIdx (cs : List Char) : Option Nat :=
  match cs.reverse.findIdx? (fun c => c = '.') with
  | none => none
  | some j => some (cs.length - 1 - j)

/-- Model of Python `Path(fp).suffix`: the substring of the final component
from its last dot, provided that dot is neither the first nor the last
character of the name; empty string otherwise. -/
def pathSuffix (s : String) : String :=
  let nm := pathName s
  let cs := nm.toList
  match lastDotIdx cs with
  | none => ""
  | some i => if 0 < i ∧ i < cs.length - 1 then (cs.drop i).asString else ""

/-- One row of the `FILE_FORMATS_TO_DTYPE_DF` lookup table: an exact
(lowercased) filename matcher, an extension matcher (with leading dot),
and the category. -/
structure FormatRow where
  filename : String
  extension : String
  type : FileType
deriving DecidableEq, Repr

/-- Embedding of `utils.get_file_type`, parameterised by the lookup table
`table` (the `FILE_FORMATS_TO_DTYPE_DF` data is shipped as a data file, so
the table is a parameter here).  Mirrors the source exactly:
exact-filename match first (short-circuits only when it yields exactly one
distinct category), then extension match, `unknown` when no extension row
matches, the unique category when one matches, and the first of
prose/data/markup/programming present when several match. -/
def get_file_type (table : List FormatRow) (fp : String) : FileType :=
  let filename := strLower (pathName fp)
  let filenameTypes :=
    ((table.filter (fun r => r.filename == filename)).map (fun r => r.type)).dedup
  if filenameTypes.length = 1 then filenameTypes.headI
  else
    let ext := strLower (pathSuffix fp)
    let extMatches := table.filter (fun r => r.extension == ext)
    if extMatches.isEmpty then FileType.unknown
    else
      let matchedTypes := (extMatches.map (fun r => r.type)).dedup
      if matchedTypes.length = 1 then matchedTypes.headI
      else if 1 < matchedTypes.length then
        (priorityOrder.find? (fun t => matchedTypes.contains t)).getD FileType.unknown
      else FileType.unknown

/-- Per-file change statistics supplied by the commit history provider
(GitPython `commit.stats.files` entry: insertions, deletions, lines). -/
structure FileStat where
  insertions : Nat
  deletions : Nat
  lines : Nat
deriving DecidableEq, Repr

/-- One raw commit record as supplied by the commit history provider
(`repo.iter_commits()`): identity, timestamps and per-file stats. -/
structure RawCommit where
  authored_datetime : Int
  committed_datetime : Int
  commit_hash : String
  commit_message : String
  committer_name : Option String
  committer_email : Option String
  author_name : Option String
  author_email : Option String
  files : List (String × FileStat)
deriving DecidableEq, Repr

/-- Embedding of `commits.PerFileCommitDelta`: one row per (commit, file). -/
structure PerFileCommitDelta where
  authored_datetime : Int
  committed_datetime : Int
  commit_hash : String
  commit_message : String
  committer_name : Option String
  committer_email : Option String
  author_name : Option String
  author_email : Option String
  filename : String
  filetype : FileType
  additions : Nat
  deletions : Nat
  lines_changed : Nat
deriving DecidableEq, Repr

/-- Embedding of `commits.CommitSummary`: one row per commit with total and
per-category counters. -/
structure CommitSummary where
  authored_datetime : Int
  committed_datetime : Int
  commit_hash : String
  commit_message : String
  committer_name : Option String
  committer_email : Option String
  author_name : Option String
  author_email : Option String
  total_files_changed : Nat
  total_additions : Nat
  total_deletions : Nat
  total_lines_changed : Nat
  programming_files_changed : Nat
  programming_additions : Nat
  programming_deletions : Nat
  programming_lines_changed : Nat
  markup_files_changed : Nat
  markup_additions : Nat
  markup_deletions : Nat
  markup_lines_changed : Nat
  prose_files_changed : Nat
  prose_additions : Nat
  prose_deletions : Nat
  prose_lines_changed : Nat
  data_files_changed : Nat
  data_additions : Nat
  data_deletions : Nat
  data_lines_changed : Nat
  unknown_files_changed : Nat
  unknown_additions : Nat
  unknown_deletions : Nat
  unknown_lines_changed : Nat
deriving DecidableEq, Repr

/-- The running per-commit counters of `parse_commits` (initialised to zero
at the start of each commit). -/
structure CommitCounters where
  total_files_changed : Nat
  total_additions : Nat
  total_deletions : Nat
  total_lines_changed : Nat
  programming_files_changed : Nat
  programming_additions : Nat
  programming_deletions : Nat
  programming_lines_changed : Nat
  markup_files_changed : Nat
  markup_additions : Nat
  markup_deletions : Nat
  markup_lines_changed : Nat
  prose_files_changed : Nat
  prose_additions : Nat
  prose_deletions : Nat
  prose_lines_changed : Nat
  data_files_changed : Nat
  data_additions : Nat
  data_deletions : Nat
  data_lines_changed : Nat
  unknown_files_changed : Nat
  unknown_additions : Nat
  unknown_deletions : Nat
  unknown_lines_changed : Nat
deriving DecidableEq, Repr

/-- All-zero counters (`parse_commits` per-commit initialisation). -/
def initCounters : CommitCounters :=
  ⟨0, 0, 0, 0, 0, 0, 0, 0, 0, 0, 0, 0, 0, 0, 0, 0, 0, 0, 0, 0, 0, 0, 0, 0⟩

/-- One loop iteration of the per-file accumulation in `parse_commits`:
always bump the totals, then bump exactly the counters of the file's
category (`else` branch catches `unknown`).  `classify` stands for
`get_linguist_file_type`, applied to `Path(filename).name`. -/
def updateCounters (classify : String → FileType) (cnt : CommitCounters)
    (fname : String) (fs : FileStat) : CommitCounters :=
  let filetype := classify (pathName fname)
  let cnt :=
    { cnt with
      total_additions := cnt.total_additions + fs.insertions
      total_deletions := cnt.total_deletions + fs.deletions
      total_lines_changed := cnt.total_lines_changed + fs.lines
      total_files_changed := cnt.total_files_changed + 1 }
  match filetype with
  | FileType.programming =>
    { cnt with
      programming_files_changed := cnt.programming_files_changed + 1
      programming_additions := cnt.programming_additions + fs.insertions
      programming_deletions := cnt.programming_deletions + fs.deletions
      programming_lines_changed := cnt.programming_lines_changed + fs.lines }
  | FileType.markup =>
    { cnt with
      markup_files_changed := cnt.markup_files_changed + 1
      markup_additions := cnt.markup_additions + fs.insertions
      markup_deletions := cnt.markup_deletions + fs.deletions
      markup_lines_changed := cnt.markup_lines_changed + fs.lines }
  | FileType.prose =>
    { cnt with
      prose_files_changed := cnt.prose_files_changed + 1
      prose_additions := cnt.prose_additions + fs.insertions
      prose_deletions := cnt.prose_deletions + fs.deletions
      prose_lines_changed := cnt.prose_lines_changed + fs.lines }
  | FileType.data =>
    { cnt with
      data_files_changed := cnt.data_files_changed + 1
      data_additions := cnt.data_additions + fs.insertions
      data_deletions := cnt.data_deletions + fs.deletions
      data_lines_changed := cnt.data_lines_changed + fs.lines }
  | FileType.unknown =>
    { cnt with
      unknown_files_changed := cnt.unknown_files_changed + 1
      unknown_additions := cnt.unknown_additions + fs.insertions
      unknown_deletions := cnt.unknown_deletions + fs.deletions
      unknown_lines_changed := cnt.unknown_lines_changed + fs.lines }

/-- The `PerFileCommitDelta` rows emitted for one commit (one per file, in
input order). -/
def commitDeltas (classify : String → FileType) (c : RawCommit) :
    List PerFileCommitDelta :=
  c.files.map (fun p =>
    { authored_datetime := c.authored_datetime
      committed_datetime := c.committed_datetime
      commit_hash := c.commit_hash
      commit_message := c.commit_message
      committer_name := c.committer_name
      committer_email := c.committer_email
      author_name := c.author_name
      author_email := c.author_email
      filename := p.1
      filetype := classify (pathName p.1)
      additions := p.2.insertions
      deletions := p.2.deletions
      lines_changed := p.2.lines })

/-- Final counters of one commit: fold of `updateCounters` over its files. -/
def commitCounters (classify : String → FileType) (c : RawCommit) :
    CommitCounters :=
  c.files.foldl (fun acc p => updateCounters classify acc p.1 p.2) initCounters

/-- The `CommitSummary` row emitted for one commit by `parse_commits`. -/
def commitSummaryOf (classify : String → FileType) (c : RawCommit) :
    CommitSummary :=
  let cnt := commitCounters classify c
  { authored_datetime := c.authored_datetime
    committed_datetime := c.committed_datetime
    commit_hash := c.commit_hash
    commit_message := c.commit_message
    committer_name := c.committer_name
    committer_email := c.committer_email
    author_name := c.author_name
    author_email := c.author_email
    total_files_changed := cnt.total_files_changed
    total_additions := cnt.total_additions
    total_deletions := cnt.total_deletions
    total_lines_changed := cnt.total_lines_changed
    programming_files_changed := cnt.programming_files_changed
    programming_additions := cnt.programming_additions
    programming_deletions := cnt.programming_deletions
    programming_lines_changed := cnt.programming_lines_changed
    markup_files_changed := cnt.markup_files_changed
    markup_additions := cnt.markup_additions
    markup_deletions := cnt.markup_deletions
    markup_lines_changed := cnt.markup_lines_changed
    prose_files_changed := cnt.prose_files_changed
    prose_additions := cnt.prose_additions
    prose_deletions := cnt.prose_deletions
    prose_lines_changed := cnt.prose_lines_changed
    data_files_changed := cnt.data_files_changed
    data_additions := cnt.data_additions
    data_deletions := cnt.data_deletions
    data_lines_changed := cnt.data_lines_changed
    unknown_files_changed := cnt.unknown_files_changed
    unknown_additions := cnt.unknown_additions
    unknown_deletions := cnt.unknown_deletions
    unknown_lines_changed := cnt.unknown_lines_changed }

/-- Embedding of `commits.ParsedCommitsResult`. -/
structure ParsedCommitsResult where
  per_file_commit_deltas : List PerFileCommitDelta
  commit_summaries : List CommitSummary
deriving DecidableEq, Repr

/-- Embedding of `commits.parse_commits`, parameterised by the classifier
(`get_linguist_file_type`, whose lookup table is a shipped data file).
For every commit it emits one delta row per changed file and one summary
row from the accumulated counters, in input order. -/
def parse_commits (classify : String → FileType) (commits : List RawCommit) :
    ParsedCommitsResult :=
  { per_file_commit_deltas := commits.flatMap (commitDeltas classify)
    commit_summaries := commits.map (commitSummaryOf classify) }

/-- The `datetime_col` parameter: `authored_datetime` or
`committed_datetime`. -/
inductive DatetimeCol where
  | authored_datetime
  | committed_datetime
deriving DecidableEq, Repr

/-- Value of the chosen datetime column of a commit-summary row. -/
def dtOf (col : DatetimeCol) (c : CommitSummary) : Int :=
  match col with
  | DatetimeCol.authored_datetime => c.authored_datetime
  | DatetimeCol.committed_datetime => c.committed_datetime

/-- Per-category `files_changed` field of a summary row. -/
def filesChangedOfType (c : CommitSummary) : FileType → Nat
  | FileType.programming => c.programming_files_changed
  | FileType.markup => c.markup_files_changed
  | FileType.prose => c.prose_files_changed
  | FileType.data => c.data_files_changed
  | FileType.unknown => c.unknown_files_changed

/-- Per-category `lines_changed` field of a summary row. -/
def linesChangedOfType (c : CommitSummary) : FileType → Nat
  | FileType.programming => c.programming_lines_changed
  | FileType.markup => c.markup_lines_changed
  | FileType.prose => c.prose_lines_changed
  | FileType.data => c.data_lines_changed
  | FileType.unknown => c.unknown_lines_changed

/-- Membership test of window `i`: the polars filter
`is_between(current, current + td, closed="left")` with
`current = start + i*td`, i.e. left-inclusive, right-exclusive. -/
def windowMemB (col : DatetimeCol) (td s : Int) (i : Nat) (c : CommitSummary) :
    Bool :=
  s + i * td ≤ dtOf col c && dtOf col c < s + i * td + td

/-- The commits of window `i` (the `commit_subset` of the loop body). -/
def windowSubset (commits : List CommitSummary) (col : DatetimeCol)
    (td s : Int) (i : Nat) : List CommitSummary :=
  commits.filter (windowMemB col td s i)

/-- Embedding of `timeseries.CommitPeriodResults` (metadata fields kept as
the parsed values; the series are the twelve aligned per-window lists). -/
structure CommitPeriodResults where
  period_td : Int
  start_datetime : Int
  end_datetime : Int
  datetime_column : DatetimeCol
  periods_changed_binary : List Nat
  periods_total_lines_changed_count : List Nat
  periods_programming_files_changed_binary : List Nat
  periods_programming_lines_changed_count : List Nat
  periods_markup_files_changed_binary : List Nat
  periods_markup_lines_changed_count : List Nat
  periods_prose_files_changed_binary : List Nat
  periods_prose_lines_changed_count : List Nat
  periods_data_files_changed_binary : List Nat
  periods_data_lines_changed_count : List Nat
  periods_unknown_files_changed_binary : List Nat
  periods_unknown_lines_changed_count : List Nat
deriving DecidableEq, Repr

/-- Number of loop iterations of `get_periods_changed`:
`n_tds = math.ceil((end - start) / td)` (exact `timedelta` division,
modelled as exact rational division), fed through `range`, which is empty
for non-positive arguments (hence `Int.toNat`). -/
def nPeriods (td s e : Int) : Nat :=
  (Int.ceil ((e - s : ℚ) / (td : ℚ))).toNat

/-- The `_get_binary_and_count_from_file_subset` helper of
`get_periods_changed`: for one window's commit subset and one category it
returns the number of commits whose `{cat}_files_changed` is positive
(stored in the "binary" series) and the sum of `{cat}_lines_changed`. -/
def binaryAndCountFromFileSubset (commit_subset : List CommitSummary)
    (ft : FileType) : Nat × Nat :=
  ((commit_subset.filter (fun c => 0 < filesChangedOfType c ft)).length,
   (commit_subset.map (fun c => linesChangedOfType c ft)).sum)

/-- The value appended to `periods_changed_binary` in iteration `i`:
1 when the window subset is non-empty, else 0. -/
def totalBinaryAt (commits : List CommitSummary) (col : DatetimeCol)
    (td s : Int) (i : Nat) : Nat :=
  if (windowSubset commits col td s i).length > 0 then 1 else 0

/-- The value appended to `periods_total_lines_changed_count` in iteration
`i`: the sum of `total_lines_changed` over the window subset (0 when the
subset is empty, matching the explicit `else` branch / empty polars sum). -/
def totalCountAt (commits : List CommitSummary) (col : DatetimeCol)
    (td s : Int) (i : Nat) : Nat :=
  ((windowSubset commits col td s i).map (fun c => c.total_lines_changed)).sum

/-- The successful result of `get_periods_changed` (loop unrolled into
twelve `List.range`-indexed series of length `nPeriods td s e`). -/
def periodsResult (commits : List CommitSummary) (td s e : Int)
    (col : DatetimeCol) : CommitPeriodResults :=
  let n := nPeriods td s e
  { period_td := td
    start_datetime := s
    end_datetime := e
    datetime_column := col
    periods_changed_binary :=
      (List.range n).map (totalBinaryAt commits col td s)
    periods_total_lines_changed_count :=
      (List.range n).map (totalCountAt commits col td s)
    periods_programming_files_changed_binary :=
      (List.range n).map (fun i =>
        (binaryAndCountFromFileSubset (windowSubset commits col td s i)
          FileType.programming).1)
    periods_programming_lines_changed_count :=
      (List.range n).map (fun i =>
        (binaryAndCountFromFileSubset (windowSubset commits col td s i)
          FileType.programming).2)
    periods_markup_files_changed_binary :=
      (List.range n).map (fun i =>
        (binaryAndCountFromFileSubset (windowSubset commits col td s i)
          FileType.markup).1)
    periods_markup_lines_changed_count :=
      (List.range n).map (fun i =>
        (binaryAndCountFromFileSubset (windowSubset commits col td s i)
          FileType.markup).2)
    periods_prose_files_changed_binary :=
      (List.range n).map (fun i =>
        (binaryAndCountFromFileSubset (windowSubset commits col td s i)
          FileType.prose).1)
    periods_prose_lines_changed_count :=
      (List.range n).map (fun i =>
        (binaryAndCountFromFileSubset (windowSubset commits col td s i)
          FileType.prose).2)
    periods_data_files_changed_binary :=
      (List.range n).map (fun i =>
        (binaryAndCountFromFileSubset (windowSubset commits col td s i)
          FileType.data).1)
    periods_data_lines_changed_count :=
      (List.range n).map (fun i =>
        (binaryAndCountFromFileSubset (windowSubset commits col td s i)
          FileType.data).2)
    periods_unknown_files_changed_binary :=
      (List.range n).map (fun i =>
        (binaryAndCountFromFileSubset (windowSubset commits col td s i)
          FileType.unknown).1)
    periods_unknown_lines_changed_count :=
      (List.range n).map (fun i =>
        (binaryAndCountFromFileSubset (windowSubset commits col td s i)
          FileType.unknown).2) }

/-- Embedding of `timeseries.get_periods_changed` with explicit `start`
and `end` arguments.  The source performs no window validation: the only
failure mode is Python's `ZeroDivisionError` when the span is the zero
`timedelta`; for a negative duration or span the `range` is simply empty. -/
def get_periods_changed (commits : List CommitSummary) (td s e : Int)
    (col : DatetimeCol) : Except String CommitPeriodResults :=
  if td = 0 then Except.error "ZeroDivisionError"
  else Except.ok (periodsResult commits td s e col)

/-- The per-category "binary" series of a result, indexed by category. -/
def binarySeriesOfType (r : CommitPeriodResults) : FileType → List Nat
  | FileType.programming => r.periods_programming_files_changed_binary
  | FileType.markup => r.periods_markup_files_changed_binary
  | FileType.prose => r.periods_prose_files_changed_binary
  | FileType.data => r.periods_data_files_changed_binary
  | FileType.unknown => r.periods_unknown_files_changed_binary

/-- The per-category lines-changed count series of a result, indexed by
category. -/
def countSeriesOfType (r : CommitPeriodResults) : FileType → List Nat
  | FileType.programming => r.periods_programming_lines_changed_count
  | FileType.markup => r.periods_markup_lines_changed_count
  | FileType.prose => r.periods_prose_lines_changed_count
  | FileType.data => r.periods_data_lines_changed_count
  | FileType.unknown => r.periods_unknown_lines_changed_count

/-- Probability vector entry used by `_compute_entropy`:
`arr[i] / sum(arr)`. -/
noncomputable def probOf (arr : List Nat) (i : Fin arr.length) : ℝ :=
  (arr.get i : ℝ) / (arr.sum : ℝ)

/-- Embedding of `timeseries._compute_entropy`: base-2 Shannon entropy of
the normalised array (`scipy.stats.entropy(arr / arr.sum(), base=2)`),
with zero probabilities contributing zero terms. -/
noncomputable def computeEntropy (arr : List Nat) : ℝ :=
  - ∑ i : Fin arr.length, probOf arr i * Real.logb 2 (probOf arr i)

/-- Embedding of `timeseries._compute_frac`: `np.sum(arr) / len(arr)`. -/
noncomputable def computeFrac (arr : List Nat) : ℝ :=
  (arr.sum : ℝ) / (arr.length : ℝ)

/-- Arithmetic mean of an integer series, as a real. -/
noncomputable def listMean (arr : List Nat) : ℝ :=
  (arr.sum : ℝ) / (arr.length : ℝ)

/-- Population standard deviation of an integer series (`ddof = 0`). -/
noncomputable def listStd (arr : List Nat) : ℝ :=
  Real.sqrt
    ((∑ i : Fin arr.length, ((arr.get i : ℝ) - listMean arr) ^ 2) /
      (arr.length : ℝ))

/-- Embedding of `scipy.stats.variation`: standard deviation divided by
mean. -/
noncomputable def computeVariation (arr : List Nat) : ℝ :=
  listStd arr / listMean arr

/-- Embedding of `timeseries.TimeseriesMetrics` (metadata fields kept as
parsed values). -/
structure TimeseriesMetrics where
  period_td : Int
  start_datetime : Int
  end_datetime : Int
  datetime_column : DatetimeCol
  changed_entropy : ℝ
  changed_variation : ℝ
  changed_frac : ℝ
  programming_files_changed_entropy : ℝ
  programming_files_changed_variation : ℝ
  programming_files_changed_frac : ℝ
  markup_files_changed_entropy : ℝ
  markup_files_changed_variation : ℝ
  markup_files_changed_frac : ℝ
  prose_files_changed_entropy : ℝ
  prose_files_changed_variation : ℝ
  prose_files_changed_frac : ℝ
  data_files_changed_entropy : ℝ
  data_files_changed_variation : ℝ
  data_files_changed_frac : ℝ
  unknown_files_changed_entropy : ℝ
  unknown_files_changed_variation : ℝ
  unknown_files_changed_frac : ℝ
  total_lines_changed_entropy : ℝ
  total_lines_changed_variation : ℝ
  programming_lines_changed_entropy : ℝ
  programming_lines_changed_variation : ℝ
  markup_lines_changed_entropy : ℝ
  markup_lines_changed_variation : ℝ
  prose_lines_changed_entropy : ℝ
  prose_lines_changed_variation : ℝ
  data_lines_changed_entropy : ℝ
  data_lines_changed_variation : ℝ
  unknown_lines_changed_entropy : ℝ
  unknown_lines_changed_variation : ℝ

/-- The return-value construction of `compute_timeseries_metrics` applied
to an already-computed `CommitPeriodResults`.  Each field is wired to the
series named in the source assignment block; note that
`prose_lines_changed_entropy` and `prose_lines_changed_variation` are
computed from `periods_programming_lines_changed_count`, exactly as in the
source. -/
noncomputable def timeseriesMetricsOfPeriods (r : CommitPeriodResults) :
    TimeseriesMetrics :=
  { period_td := r.period_td
    start_datetime := r.start_datetime
    end_datetime := r.end_datetime
    datetime_column := r.datetime_column
    changed_entropy := computeEntropy r.periods_changed_binary
    changed_variation := computeVariation r.periods_changed_binary
    changed_frac := computeFrac r.periods_changed_binary
    programming_files_changed_entropy :=
      computeEntropy r.periods_programming_files_changed_binary
    programming_files_changed_variation :=
      computeVariation r.periods_programming_files_changed_binary
    programming_files_changed_frac :=
      computeFrac r.periods_programming_files_changed_binary
    markup_files_changed_entropy :=
      computeEntropy r.periods_markup_files_changed_binary
    markup_files_changed_variation :=
      computeVariation r.periods_markup_files_changed_binary
    markup_files_changed_frac :=
      computeFrac r.periods_markup_files_changed_binary
    prose_files_changed_entropy :=
      computeEntropy r.periods_prose_files_changed_binary
    prose_files_changed_variation :=
      computeVariation r.periods_prose_files_changed_binary
    prose_files_changed_frac :=
      computeFrac r.periods_prose_files_changed_binary
    data_files_changed_entropy :=
      computeEntropy r.periods_data_files_changed_binary
    data_files_changed_variation :=
      computeVariation r.periods_data_files_changed_binary
    data_files_changed_frac :=
      computeFrac r.periods_data_files_changed_binary
    unknown_files_changed_entropy :=
      computeEntropy r.periods_unknown_files_changed_binary
    unknown_files_changed_variation :=
      computeVariation r.periods_unknown_files_changed_binary
    unknown_files_changed_frac :=
      computeFrac r.periods_unknown_files_changed_binary
    total_lines_changed_entropy :=
      computeEntropy r.periods_total_lines_changed_count
    total_lines_changed_variation :=
      computeVariation r.periods_total_lines_changed_count
    programming_lines_changed_entropy :=
      computeEntropy r.periods_programming_lines_changed_count
    programming_lines_changed_variation :=
      computeVariation r.periods_programming_lines_changed_count
    markup_lines_changed_entropy :=
      computeEntropy r.periods_markup_lines_changed_count
    markup_lines_changed_variation :=
      computeVariation r.periods_markup_lines_changed_count
    prose_lines_changed_entropy :=
      computeEntropy r.periods_programming_lines_changed_count
    prose_lines_changed_variation :=
      computeVariation r.periods_programming_lines_changed_count
    data_lines_changed_entropy :=
      computeEntropy r.periods_data_lines_changed_count
    data_lines_changed_variation :=
      computeVariation r.periods_data_lines_changed_count
    unknown_lines_changed_entropy :=
      computeEntropy r.periods_unknown_lines_changed_count
    unknown_lines_changed_variation :=
      computeVariation r.periods_unknown_lines_changed_count }

/-- Embedding of `timeseries.compute_timeseries_metrics` with explicit
`start`/`end`: parses nothing further, obtains the period series from
`get_periods_changed` and assembles the statistics record. -/
noncomputable def compute_timeseries_metrics (commits : List CommitSummary)
    (td s e : Int) (col : DatetimeCol) : Except String TimeseriesMetrics :=
  if td = 0 then Except.error "ZeroDivisionError"
  else Except.ok (timeseriesMetricsOfPeriods (periodsResult commits td s e col))

/-- The `contributor_name_col` parameter: `author_name` or
`committer_name`. -/
inductive NameCol where
  | author_name
  | committer_name
deriving DecidableEq, Repr

/-- Value of the chosen contributor-name column of a summary row
(nullable, matching the dataframe column). -/
def nameOf (col : NameCol) (c : CommitSummary) : Option String :=
  match col with
  | NameCol.author_name => c.author_name
  | NameCol.committer_name => c.committer_name

/-- The six `file_subset` keys iterated by
`compute_contributor_absence_factor`: `"total"` plus every `FileTypes`
member. -/
inductive LinesSubset where
  | total
  | category (ft : FileType)
deriving DecidableEq, Repr

/-- The `{file_subset}_lines_changed` column of a summary row. -/
def linesChangedOfSubset (c : CommitSummary) : LinesSubset → Nat
  | LinesSubset.total => c.total_lines_changed
  | LinesSubset.category ft => linesChangedOfType c ft

/-- Distinct group keys of a polars `group_by` on the contributor-name
column (null forms its own group), in first-appearance order. -/
def contributorKeys (commits : List CommitSummary) (col : NameCol) :
    List (Option String) :=
  (commits.map (nameOf col)).dedup

/-- Per-contributor summed lines changed for one `file_subset`, one entry
per `group_by` group. -/
def contributorLinesSums (commits : List CommitSummary) (col : NameCol)
    (subset : LinesSubset) : List Nat :=
  (contributorKeys commits col).map (fun k =>
    ((commits.filter (fun c => nameOf col c == k)).map
      (fun c => linesChangedOfSubset c subset)).sum)

/-- Python `sorted(values, reverse=True)`: the list sorted in descending
order. -/
def sortDescending (l : List Nat) : List Nat :=
  l.insertionSort (fun a b => b ≤ a)

/-- The accumulation loop of `compute_contributor_absence_factor`: walk the
(descending) list, counting entries until the running total reaches
`half`; an empty list yields 0, and if `half` is never reached the count
is the whole length (the loop ends without `break`). -/
def countToHalf (l : List Nat) (half : ℚ) : Nat :=
  match l with
  | [] => 0
  | x :: xs => if half ≤ (x : ℚ) then 1 else 1 + countToHalf xs (half - (x : ℚ))

/-- Absence factor of one `file_subset`: sort the per-contributor sums
descending, take `half = sum / 2` (Python float division, modelled
exactly), and count contributors until the cumulative sum reaches `half`. -/
def contributorsToHalf (sums : List Nat) : Nat :=
  countToHalf (sortDescending sums) ((sums.sum : ℚ) / 2)

/-- Embedding of `contributors.ContributorAbsenceFactorMetrics`. -/
structure ContributorAbsenceFactorMetrics where
  total_contributor_absence_factor : Nat
  programming_contributor_absence_factor : Nat
  markup_contributor_absence_factor : Nat
  prose_contributor_absence_factor : Nat
  data_contributor_absence_factor : Nat
  unknown_contributor_absence_factor : Nat
deriving DecidableEq, Repr

/-- The commits inside the requested `[start, end]` range (closed on both
sides), as filtered by `compute_contributor_absence_factor`. -/
def scopedCommits (commits : List CommitSummary) (s e : Int)
    (dcol : DatetimeCol) : List CommitSummary :=
  commits.filter (fun c => s ≤ dtOf dcol c && dtOf dcol c ≤ e)

/-- Embedding of `contributors.compute_contributor_absence_factor` with
explicit `start`/`end`: restrict the commits to `[start, end]` (closed on
both sides), then per subset group by contributor, sum, sort descending
and count to half. -/
def compute_contributor_absence_factor (commits : List CommitSummary)
    (s e : Int) (ncol : NameCol) (dcol : DatetimeCol) :
    ContributorAbsenceFactorMetrics :=
  let inScope := scopedCommits commits s e dcol
  { total_contributor_absence_factor :=
      contributorsToHalf (contributorLinesSums inScope ncol LinesSubset.total)
    programming_contributor_absence_factor :=
      contributorsToHalf (contributorLinesSums inScope ncol
        (LinesSubset.category FileType.programming))
    markup_contributor_absence_factor :=
      contributorsToHalf (contributorLinesSums inScope ncol
        (LinesSubset.category FileType.markup))
    prose_contributor_absence_factor :=
      contributorsToHalf (contributorLinesSums inScope ncol
        (LinesSubset.category FileType.prose))
    data_contributor_absence_factor :=
      contributorsToHalf (contributorLinesSums inScope ncol
        (LinesSubset.category FileType.data))
    unknown_contributor_absence_factor :=
      contributorsToHalf (contributorLinesSums inScope ncol
        (LinesSubset.category FileType.unknown)) }

/-- The metric field of the result that belongs to one `file_subset`. -/
def factorOfSubset (m : ContributorAbsenceFactorMetrics) : LinesSubset → Nat
  | LinesSubset.total => m.total_contributor_absence_factor
  | LinesSubset.category FileType.programming =>
      m.programming_contributor_absence_factor
  | LinesSubset.category FileType.markup => m.markup_contributor_absence_factor
  | LinesSubset.category FileType.prose => m.prose_contributor_absence_factor
  | LinesSubset.category FileType.data => m.data_contributor_absence_factor
  | LinesSubset.category FileType.unknown =>
      m.unknown_contributor_absence_factor

/-- Substring containment on strings (Python `in`), case handled by the
caller. -/
def strContainsSub (hay needle : String) : Bool :=
  (List.range (hay.toList.length + 1)).any (fun i =>
    needle.toList.isPrefixOf (hay.toList.drop i))

/-- Modelled from the spec:
`commits.normalize_changes_df_and_remove_bot_changes` is not under `src/`.
Per the spec's bot-filter contract, a commit is a bot commit when its
author-or-committer name case-insensitively matches a configured bot name,
or its author/committer email contains a configured bot-email indicator
substring. -/
def isBotCommit (botNames : List String) (botEmailIndicators : List String)
    (c : CommitSummary) : Bool :=
  botNames.any (fun b =>
    (match c.author_name with
     | none => false
     | some n => strContainsSub (strLower n) (strLower b)) ||
    (match c.committer_name with
     | none => false
     | some n => strContainsSub (strLower n) (strLower b))) ||
  botEmailIndicators.any (fun ind =>
    (match c.author_email with
     | none => false
     | some m => strContainsSub (strLower m) (strLower ind)) ||
    (match c.committer_email with
     | none => false
     | some m => strContainsSub (strLower m) (strLower ind)))

/-- Modelled from the spec: the bot-filter stage drops every bot commit
row and keeps the rest, reporting how many were removed. -/
def remove_bot_changes (botNames botEmailIndicators : List String)
    (commits : List CommitSummary) : List CommitSummary × Nat :=
  let kept := commits.filter (fun c => !(isBotCommit botNames botEmailIndicators c))
  (kept, commits.length - kept.length)

/-- Modelled from the spec: `utils.filter_changes_to_dt_range` is not
under `src/`.  Per the spec, it restricts the table to the requested
window, deriving a missing bound from the min/max of the datetime column,
and returns the resolved bounds. -/
def filter_changes_to_dt_range (commits : List CommitSummary)
    (sOpt eOpt : Option Int) (dcol : DatetimeCol) :
    List CommitSummary × Int × Int :=
  let s := match sOpt with
    | some v => v
    | none => ((commits.map (dtOf dcol)).min?).getD 0
  let e := match eOpt with
    | some v => v
    | none => ((commits.map (dtOf dcol)).max?).getD 0
  (commits.filter (fun c => s ≤ dtOf dcol c && dtOf dcol c ≤ e), s, e)

/-- Slice of `main._analyze_repository` relevant to the minimum-history
guard: parse results come in as `commits`; if fewer than 5 rows are
present the function returns `None` *before* any window restriction or
bot filtering; otherwise it restricts to the requested window, drops bot
commits, and hands the resulting table to the metric computations (the
collaborator metric calls and the timeout wrapper are out of scope).  The
returned table is the one all statistics are computed from. -/
def analyze_repository_commits (commits : List CommitSummary)
    (sOpt eOpt : Option Int) (dcol : DatetimeCol)
    (botNames botEmailIndicators : List String) :
    Option (List CommitSummary) :=
  if commits.length < 5 then none
  else
    let ranged := (filter_changes_to_dt_range commits sOpt eOpt dcol).1
    some (remove_bot_changes botNames botEmailIndicators ranged).1

instance : IsTotal Nat (fun a b => b ≤ a) :=
  ⟨fun a b => le_total b a⟩

instance : IsTrans Nat (fun a b => b ≤ a) :=
  ⟨fun _ _ _ h1 h2 => le_trans h2 h1⟩

/-- A commit-summary row with all counters zero and empty identity, used
as the base of concrete test rows. -/
def zeroCommit : CommitSummary :=
  { authored_datetime := 0
    committed_datetime := 0
    commit_hash := ""
    commit_message := ""
    committer_name := none
    committer_email := none
    author_name := none
    author_email := none
    total_files_changed := 0
    total_additions := 0
    total_deletions := 0
    total_lines_changed := 0
    programming_files_changed := 0
    programming_additions := 0
    programming_deletions := 0
    programming_lines_changed := 0
    markup_files_changed := 0
    markup_additions := 0
    markup_deletions := 0
    markup_lines_changed := 0
    prose_files_changed := 0
    prose_additions := 0
    prose_deletions := 0
    prose_lines_changed := 0
    data_files_changed := 0
    data_additions := 0
    data_deletions := 0
    data_lines_changed := 0
    unknown_files_changed := 0
    unknown_additions := 0
    unknown_deletions := 0
    unknown_lines_changed := 0 }

/-- Concrete table for the activity-indicator check: two commits in the
same window, both touching one programming file with zero lines changed. -/
def commitsBinaryCase : List CommitSummary :=
  [{ zeroCommit with committed_datetime := 0, programming_files_changed := 1,
                     total_files_changed := 1 },
   { zeroCommit with committed_datetime := 1, programming_files_changed := 1,
                     total_files_changed := 1 }]

/-- Concrete table for the prose-statistics check: the programming
per-window lines series is `[1, 1]` while the prose series is `[1, 0]`. -/
def commitsProseCase : List CommitSummary :=
  [{ zeroCommit with committed_datetime := 0, programming_lines_changed := 1,
                     prose_lines_changed := 1, total_lines_changed := 2 },
   { zeroCommit with committed_datetime := 10, programming_lines_changed := 1,
                     total_lines_changed := 1 }]

/-- Concrete table for the absence-factor check: a single contributor
whose prose lines-changed total is zero. -/
def commitsAbsenceCase : List CommitSummary :=
  [{ zeroCommit with author_name := some "alice", total_lines_changed := 5 }]

/-- Concrete table for the minimum-history check: five commits, all
authored by a bot account. -/
def commitsBotCase : List CommitSummary :=
  [{ zeroCommit with commit_hash := "a", author_name := some "dependabot" },
   { zeroCommit with commit_hash := "b", author_name := some "dependabot" },
   { zeroCommit with commit_hash := "c", author_name := some "dependabot" },
   { zeroCommit with commit_hash := "d", author_name := some "dependabot" },
   { zeroCommit with commit_hash := "e", author_name := some "dependabot" }]

/-- Roll-up consistency of one counter record: each `total_X` equals the
sum of the five per-category `X` counters. -/
def CountersConsistent (cnt : CommitCounters) : Prop :=
  cnt.total_files_changed =
    cnt.programming_files_changed + cnt.markup_files_changed +
    cnt.prose_files_changed + cnt.data_files_changed +
    cnt.unknown_files_changed ∧
  cnt.total_additions =
    cnt.programming_additions + cnt.markup_additions +
    cnt.prose_additions + cnt.data_additions + cnt.unknown_additions ∧
  cnt.total_deletions =
    cnt.programming_deletions + cnt.markup_deletions +
    cnt.prose_deletions + cnt.data_deletions + cnt.unknown_deletions ∧
  cnt.total_lines_changed =
    cnt.programming_lines_changed + cnt.markup_lines_changed +
    cnt.prose_lines_changed + cnt.data_lines_changed +
    cnt.unknown_lines_changed

/-- A raw commit with a single programming file, used to instantiate the
row-correspondence theorem. -/
def demoRawCommit : RawCommit :=
  { authored_datetime := 0
    committed_datetime := 0
    commit_hash := "a"
    commit_message := "m"
    committer_name := some "alice"
    committer_email := some "alice@example.org"
    author_name := some "alice"
    author_email := some "alice@example.org"
    files := [("x.py", ⟨1, 2, 3⟩), ("y.md", ⟨4, 0, 4⟩)] }

/-- A concrete classifier used for instantiations: `.py` files are
programming, everything else prose. -/
def demoClassify (fname : String) : FileType :=
  if pathSuffix fname == ".py" then FileType.programming else FileType.prose

/-- The lookup table used to instantiate the classifier theorem: the
`.yml` extension is claimed by both markup and data. -/
def demoFormatTable : List FormatRow :=
  [{ filename := "makefile", extension := "", type := FileType.programming },
   { filename := "", extension := ".yml", type := FileType.markup },
   { filename := "", extension := ".yml", type := FileType.data }]

theorem nPeriods_eq_of_ceil (td s e : Int) (k : Nat)
    (h : (Int.ceil ((e - s : ℚ) / (td : ℚ))) = (k : ℤ)) :
    nPeriods td s e = k := by
  unfold nPeriods
  rw [h]
  exact Int.toNat_natCast k

theorem nPeriods_eq_zero_of_nonpos (td s e : Int)
    (h : (Int.ceil ((e - s : ℚ) / (td : ℚ))) ≤ 0) :
    nPeriods td s e = 0 := by
  unfold nPeriods
  exact Int.toNat_of_nonpos h

theorem nPeriods_eq_zero_of_lt (td s e : Int) (htd : 0 < td) (hes : e < s) :
    nPeriods td s e = 0 := by
  apply nPeriods_eq_zero_of_nonpos
  rw [show (0 : ℤ) = ((0 : ℤ) : ℤ) from rfl, Int.ceil_le]
  push_cast
  apply div_nonpos_of_nonpos_of_nonneg
  · simp only [sub_nonpos]
    exact_mod_cast le_of_lt hes
  · exact_mod_cast le_of_lt htd

/-- C8 counterexample: with span 5 and start 10 strictly after end 0, the
bucketing does not fail: it returns an ordinary (empty-series) result, so
no `InvalidWindowError` (indeed no error at all) is raised. -/
theorem C8_counterexample :
    get_periods_changed [] 5 10 0 DatetimeCol.committed_datetime =
      Except.ok (periodsResult [] 5 10 0 DatetimeCol.committed_datetime) ∧
    (periodsResult [] 5 10 0 DatetimeCol.committed_datetime
      ).periods_changed_binary = [] ∧
    (periodsResult [] 5 10 0 DatetimeCol.committed_datetime
      ).periods_total_lines_changed_count = [] := by
  have h : nPeriods 5 10 0 = 0 := nPeriods_eq_zero_of_lt 5 10 0 (by decide) (by decide)
  refine ⟨by simp [get_periods_changed], ?_, ?_⟩ <;>
    simp [periodsResult, h]

/-- C8 (amended): `get_periods_changed` performs no window validation.
With a zero span it fails with a division error (not an
`InvalidWindowError`, which exists nowhere in the code); with a positive
span and start strictly after end it succeeds and returns a result with
zero windows (every series empty), because `ceil((end - start)/span)` is
non-positive and `range` of a non-positive count is empty. -/
theorem C8_no_window_validation (commits : List CommitSummary) (td s e : Int)
    (col : DatetimeCol) :
    (td = 0 → get_periods_changed commits td s e col =
      Except.error "ZeroDivisionError") ∧
    (0 < td → e < s →
      get_periods_changed commits td s e col =
        Except.ok (periodsResult commits td s e col) ∧
      (periodsResult commits td s e col).periods_changed_binary = [] ∧
      (periodsResult commits td s e col).periods_total_lines_changed_count = [] ∧
      (∀ ft : FileType,
        binarySeriesOfType (periodsResult commits td s e col) ft = [] ∧
        countSeriesOfType (periodsResult commits td s e col) ft = [])) := by
  constructor
  · intro h
    simp [get_periods_changed, h]
  · intro htd hes
    have hne : td ≠ 0 := ne_of_gt htd
    have h0 : nPeriods td s e = 0 := nPeriods_eq_zero_of_lt td s e htd hes
    refine ⟨by simp [get_periods_changed, hne], ?_, ?_, ?_⟩
    · simp [periodsResult, h0]
    · simp [periodsResult, h0]
    · intro ft
      cases ft <;> simp [periodsResult, h0, binarySeriesOfType, countSeriesOfType]

/-- C8 witness: the no-validation theorem applied at span 5, start 10,
end 0 on the empty table. -/
theorem C8_no_window_validation_witness :
    (0 : Int) < 5 ∧ (0 : Int) < 10 ∧
    (get_periods_changed [] 5 10 0 DatetimeCol.authored_datetime =
        Except.ok (periodsResult [] 5 10 0 DatetimeCol.authored_datetime) ∧
      (periodsResult [] 5 10 0 DatetimeCol.authored_datetime
        ).periods_changed_binary = [] ∧
      (periodsResult [] 5 10 0 DatetimeCol.authored_datetime
        ).periods_total_lines_changed_count = [] ∧
      (∀ ft : FileType,
        binarySeriesOfType
          (periodsResult [] 5 10 0 DatetimeCol.authored_datetime) ft = [] ∧
        countSeriesOfType
          (periodsResult [] 5 10 0 DatetimeCol.authored_datetime) ft = [])) :=
  ⟨by decide, by decide,
    (C8_no_window_validation [] 5 10 0 DatetimeCol.authored_datetime).2
      (by decide) (by decide)⟩

/-- C9 counterexample: five raw commits, all authored by `dependabot`.
The analysis does not return `None`: it proceeds and computes statistics
over the bot-filtered table, which is empty (0 commits, fewer than 5). -/
theorem C9_counterexample :
    analyze_repository_commits commitsBotCase none none
        DatetimeCol.authored_datetime ["dependabot", "github"] ["[bot]"] =
      some [] ∧
    commitsBotCase.length = 5 ∧
    ([] : List CommitSummary).length < 5 := by
  refine ⟨by decide, by decide, by decide⟩

/-- C9 (amended): `_analyze_repository` yields `None` exactly when the
*raw* parsed commit table has fewer than 5 rows; the check runs before the
window restriction and before bot filtering, so a repository with at least
5 raw commits is analysed even when fewer than 5 commits survive
filtering. -/
theorem C9_guard_on_raw_count (commits : List CommitSummary)
    (sOpt eOpt : Option Int) (dcol : DatetimeCol)
    (botNames botEmailIndicators : List String) :
    (analyze_repository_commits commits sOpt eOpt dcol botNames
        botEmailIndicators = none ↔ commits.length < 5) := by
  unfold analyze_repository_commits
  split
  · simp_all
  · simp_all

theorem getD_range_map (f : Nat → Nat) (n i : Nat) (hi : i < n) :
    ((List.range n).map f).getD i 0 = f i := by
  rw [List.getD_eq_getElem?_getD]
  simp [List.getElem?_map, List.getElem?_range hi]

/-- C2 counterexample: two commits in one window, each touching one
programming file with zero programming lines changed.  The programming
activity-indicator entry is 2 — not a 0/1 value — even though no commit
in the window has nonzero programming `lines_changed` (the claim predicts
the entry 0). -/
theorem C2_counterexample :
    (periodsResult commitsBinaryCase 10 0 10 DatetimeCol.committed_datetime
      ).periods_programming_files_changed_binary = [2] ∧
    commitsBinaryCase.all (fun c => c.programming_lines_changed == 0) = true ∧
    ¬((2 : Nat) = 0 ∨ (2 : Nat) = 1) := by
  refine ⟨?_, by decide, by decide⟩
  have h : nPeriods 10 0 10 = 1 := by
    apply nPeriods_eq_of_ceil
    norm_num [Int.ceil_eq_iff]
  simp only [periodsResult, h]
  decide

/-- C2 (amended): in the series produced by `get_periods_changed`, the
total indicator entry for window `i` is 1 exactly when the window contains
any commit at all (regardless of lines changed), and each per-category
"binary" entry is the *number* of commits in the window whose
`{category}_files_changed` is positive — so it can exceed 1, it is 0
exactly when no commit in the window touched a file of that category, and
the per-category lines-changed sums are as claimed. -/
theorem C2_indicator_semantics (commits : List CommitSummary) (td s e : Int)
    (col : DatetimeCol) (htd : td ≠ 0) :
    get_periods_changed commits td s e col =
      Except.ok (periodsResult commits td s e col) ∧
    (∀ i, i < nPeriods td s e →
      ((periodsResult commits td s e col).periods_changed_binary.getD i 0 =
        if (windowSubset commits col td s i).length > 0 then 1 else 0) ∧
      ((periodsResult commits td s e col).periods_changed_binary.getD i 0 = 1 ↔
        ∃ c ∈ commits, windowMemB col td s i c = true) ∧
      (∀ ft : FileType,
        (binarySeriesOfType (periodsResult commits td s e col) ft).getD i 0 =
          ((windowSubset commits col td s i).filter
            (fun c => 0 < filesChangedOfType c ft)).length ∧
        ((binarySeriesOfType (periodsResult commits td s e col) ft).getD i 0 = 0
            ↔ ∀ c ∈ commits, windowMemB col td s i c = true →
              filesChangedOfType c ft = 0) ∧
        (countSeriesOfType (periodsResult commits td s e col) ft).getD i 0 =
          ((windowSubset commits col td s i).map
            (fun c => linesChangedOfType c ft)).sum)) := by
  refine ⟨by simp [get_periods_changed, htd], ?_⟩
  intro i hi
  refine ⟨?_, ?_, ?_⟩
  · simp only [periodsResult, getD_range_map _ _ _ hi, totalBinaryAt]
  · simp only [periodsResult, getD_range_map _ _ _ hi, totalBinaryAt]
    constructor
    · intro h
      by_cases hpos : (windowSubset commits col td s i).length > 0
      · obtain ⟨c, hc⟩ := List.exists_mem_of_length_pos hpos
        exact ⟨c, (List.mem_filter.mp hc).1, (List.mem_filter.mp hc).2⟩
      · simp [hpos] at h
    · rintro ⟨c, hc, hmem⟩
      have : c ∈ windowSubset commits col td s i :=
        List.mem_filter.mpr ⟨hc, hmem⟩
      have hpos : (windowSubset commits col td s i).length > 0 :=
        List.length_pos.mpr (List.ne_nil_of_mem this)
      simp [hpos]
  · intro ft
    refine ⟨?_, ?_, ?_⟩
    · cases ft <;>
        simp [periodsResult, binarySeriesOfType, getD_range_map _ _ _ hi,
          binaryAndCountFromFileSubset, List.getElem?_range hi]
    · have hval :
          (binarySeriesOfType (periodsResult commits td s e col) ft).getD i 0 =
            ((windowSubset commits col td s i).filter
              (fun c => 0 < filesChangedOfType c ft)).length := by
        cases ft <;>
          simp [periodsResult, binarySeriesOfType, getD_range_map _ _ _ hi,
            binaryAndCountFromFileSubset, List.getElem?_range hi]
      rw [hval, List.length_eq_zero, List.filter_eq_nil_iff]
      constructor
      · intro h c hc hmem
        have := h c (List.mem_filter.mpr ⟨hc, hmem⟩)
        simpa using this
      · intro h c hc
        have hmem := List.mem_filter.mp hc
        simp [h c hmem.1 hmem.2]
    · cases ft <;>
        simp [periodsResult, countSeriesOfType, getD_range_map _ _ _ hi,
          binaryAndCountFromFileSubset, List.getElem?_range hi]

/-- C2 witness: the amended indicator semantics applied to the
two-commit table with span 10 over `[0, 10]`. -/
theorem C2_indicator_semantics_witness :
    ((10 : Int) ≠ 0) ∧
    (get_periods_changed commitsBinaryCase 10 0 10
        DatetimeCol.committed_datetime =
      Except.ok (periodsResult commitsBinaryCase 10 0 10
        DatetimeCol.committed_datetime) ∧
    (∀ i, i < nPeriods 10 0 10 →
      ((periodsResult commitsBinaryCase 10 0 10 DatetimeCol.committed_datetime
          ).periods_changed_binary.getD i 0 =
        if (windowSubset commitsBinaryCase DatetimeCol.committed_datetime
            10 0 i).length > 0 then 1 else 0) ∧
      ((periodsResult commitsBinaryCase 10 0 10 DatetimeCol.committed_datetime
          ).periods_changed_binary.getD i 0 = 1 ↔
        ∃ c ∈ commitsBinaryCase,
          windowMemB DatetimeCol.committed_datetime 10 0 i c = true) ∧
      (∀ ft : FileType,
        (binarySeriesOfType (periodsResult commitsBinaryCase 10 0 10
            DatetimeCol.committed_datetime) ft).getD i 0 =
          ((windowSubset commitsBinaryCase DatetimeCol.committed_datetime
            10 0 i).filter (fun c => 0 < filesChangedOfType c ft)).length ∧
        ((binarySeriesOfType (periodsResult commitsBinaryCase 10 0 10
            DatetimeCol.committed_datetime) ft).getD i 0 = 0
            ↔ ∀ c ∈ commitsBinaryCase,
              windowMemB DatetimeCol.committed_datetime 10 0 i c = true →
                filesChangedOfType c ft = 0) ∧
        (countSeriesOfType (periodsResult commitsBinaryCase 10 0 10
            DatetimeCol.committed_datetime) ft).getD i 0 =
          ((windowSubset commitsBinaryCase DatetimeCol.committed_datetime
            10 0 i).map (fun c => linesChangedOfType c ft)).sum))) :=
  ⟨by decide,
    C2_indicator_semantics commitsBinaryCase 10 0 10
      DatetimeCol.committed_datetime (by decide)⟩

theorem countToHalf_le_length (l : List Nat) :
    ∀ half : ℚ, countToHalf l half ≤ l.length := by
  induction l with
  | nil => intro half; simp [countToHalf]
  | cons x xs ih =>
    intro half
    simp only [countToHalf, List.length_cons]
    split
    · omega
    · have := ih (half - (x : ℚ))
      omega

theorem countToHalf_pos (l : List Nat) (half : ℚ) (h : l ≠ []) :
    1 ≤ countToHalf l half := by
  cases l with
  | nil => exact absurd rfl h
  | cons x xs =>
    simp only [countToHalf]
    split <;> omega

theorem countToHalf_min (l : List Nat) :
    ∀ (half : ℚ) (j : Nat), 1 ≤ j → j < countToHalf l half →
      ((l.take j).sum : ℚ) < half := by
  induction l with
  | nil =>
    intro half j hj1 hj2
    exact absurd hj2 (by simp [countToHalf])
  | cons x xs ih =>
    intro half j hj1 hj2
    obtain ⟨j', rfl⟩ : ∃ j', j = j' + 1 := ⟨j - 1, by omega⟩
    simp only [countToHalf] at hj2
    by_cases hx : half ≤ (x : ℚ)
    · rw [if_pos hx] at hj2
      omega
    · rw [if_neg hx] at hj2
      rcases Nat.eq_zero_or_pos j' with rfl | hj'
      · simpa using not_le.mp hx
      · have h2 : j' < countToHalf xs (half - (x : ℚ)) := by omega
        have h3 := ih (half - (x : ℚ)) j' hj' h2
        simp only [List.take_succ_cons, List.sum_cons]
        push_cast
        push_cast at h3
        linarith

theorem countToHalf_reaches (l : List Nat) :
    ∀ half : ℚ,
      half ≤ ((l.take (countToHalf l half)).sum : ℚ) ∨
        countToHalf l half = l.length := by
  induction l with
  | nil => intro half; right; rfl
  | cons x xs ih =>
    intro half
    by_cases hx : half ≤ (x : ℚ)
    · left
      simp only [countToHalf, if_pos hx, List.take_succ_cons, List.take_zero,
        List.sum_cons, List.sum_nil]
      simpa using hx
    · simp only [countToHalf, if_neg hx]
      rcases ih (half - (x : ℚ)) with h | h
      · left
        rw [Nat.add_comm 1 (countToHalf xs (half - (x : ℚ)))]
        simp only [List.take_succ_cons, List.sum_cons]
        push_cast
        push_cast at h
        linarith
      · right
        simp [h, List.length_cons]
        omega

/-- C6 counterexample: a single in-scope contributor whose prose
lines-changed total is zero.  The prose grand total is 0, so the claim
predicts an absence factor of 0, but the loop counts the first contributor
(0 ≥ 0/2 at the first iteration) and reports 1. -/
theorem C6_counterexample :
    (compute_contributor_absence_factor commitsAbsenceCase 0 0
      NameCol.author_name DatetimeCol.authored_datetime
      ).prose_contributor_absence_factor = 1 ∧
    (contributorLinesSums
      (scopedCommits commitsAbsenceCase 0 0 DatetimeCol.authored_datetime)
      NameCol.author_name (LinesSubset.category FileType.prose)).sum = 0 ∧
    (1 : Nat) ≠ 0 := by
  refine ⟨?_, by decide, by decide⟩
  simp only [compute_contributor_absence_factor, contributorLinesSums,
    contributorKeys, contributorsToHalf, sortDescending, countToHalf,
    scopedCommits]
  norm_num

/-- C6 (amended): for every scoped commit set and subset
(total or one of the five categories), the reported absence factor is the
count produced by walking the per-contributor sums in descending order
until the cumulative sum reaches at least half the grand total; it is at
least 1 whenever at least one contributor group exists — in particular it
is 1, not 0, when the grand total is 0 and a contributor exists — and it
is 0 exactly in the no-contributor case.  The count is minimal: every
strictly shorter positive prefix of the descending order sums to strictly
less than half. -/
theorem C6_absence_factor (commits : List CommitSummary) (s e : Int)
    (ncol : NameCol) (dcol : DatetimeCol) (subset : LinesSubset)
    (sums : List Nat)
    (hsums : sums =
      contributorLinesSums (scopedCommits commits s e dcol) ncol subset)
    (k : Nat)
    (hk : k = factorOfSubset
      (compute_contributor_absence_factor commits s e ncol dcol) subset) :
    k = countToHalf (sortDescending sums) ((sums.sum : ℚ) / 2) ∧
    List.Sorted (fun a b => b ≤ a) (sortDescending sums) ∧
    (sortDescending sums).Perm sums ∧
    (sums = [] → k = 0) ∧
    (sums ≠ [] → 1 ≤ k ∧ k ≤ sums.length) ∧
    (sums.sum : ℚ) / 2 ≤ (((sortDescending sums).take k).sum : ℚ) ∧
    (∀ j, 1 ≤ j → j < k →
      (((sortDescending sums).take j).sum : ℚ) < (sums.sum : ℚ) / 2) := by
  have hfield : factorOfSubset
      (compute_contributor_absence_factor commits s e ncol dcol) subset =
      contributorsToHalf
        (contributorLinesSums (scopedCommits commits s e dcol) ncol subset) := by
    rcases subset with _ | ft
    · rfl
    · cases ft <;> rfl
  have hk' : k = countToHalf (sortDescending sums) ((sums.sum : ℚ) / 2) := by
    rw [hk, hfield, ← hsums, contributorsToHalf]
  have hperm : (sortDescending sums).Perm sums := List.perm_insertionSort _ _
  have hlen : (sortDescending sums).length = sums.length := hperm.length_eq
  have hsum : (sortDescending sums).sum = sums.sum := hperm.sum_eq
  refine ⟨hk', List.sorted_insertionSort _ _, hperm, ?_, ?_, ?_, ?_⟩
  · intro h
    rw [hk', h]
    rfl
  · intro h
    have hne : sortDescending sums ≠ [] := by
      intro hnil
      rw [← List.length_eq_zero] at hnil
      rw [hlen, List.length_eq_zero] at hnil
      exact h hnil
    constructor
    · rw [hk']
      exact countToHalf_pos _ _ hne
    · rw [hk', ← hlen]
      exact countToHalf_le_length _ _
  · rcases countToHalf_reaches (sortDescending sums) ((sums.sum : ℚ) / 2)
      with h | h
    · rw [hk']
      exact h
    · rw [hk', h, List.take_length, hsum]
      have : (0 : ℚ) ≤ (sums.sum : ℚ) := Nat.cast_nonneg _
      linarith
  · intro j hj1 hj2
    rw [hk'] at hj2
    exact countToHalf_min _ _ j hj1 hj2

/-- C6 witness: the absence-factor characterisation applied to the
one-contributor table on the `total` subset. -/
theorem C6_absence_factor_witness :
    (factorOfSubset
        (compute_contributor_absence_factor commitsAbsenceCase 0 0
          NameCol.author_name DatetimeCol.authored_datetime) LinesSubset.total =
      countToHalf
        (sortDescending (contributorLinesSums
          (scopedCommits commitsAbsenceCase 0 0 DatetimeCol.authored_datetime)
          NameCol.author_name LinesSubset.total))
        (((contributorLinesSums
          (scopedCommits commitsAbsenceCase 0 0 DatetimeCol.authored_datetime)
          NameCol.author_name LinesSubset.total).sum : ℚ) / 2)) ∧
    List.Sorted (fun a b => b ≤ a)
      (sortDescending (contributorLinesSums
        (scopedCommits commitsAbsenceCase 0 0 DatetimeCol.authored_datetime)
        NameCol.author_name LinesSubset.total)) ∧
    (sortDescending (contributorLinesSums
      (scopedCommits commitsAbsenceCase 0 0 DatetimeCol.authored_datetime)
      NameCol.author_name LinesSubset.total)).Perm
      (contributorLinesSums
        (scopedCommits commitsAbsenceCase 0 0 DatetimeCol.authored_datetime)
        NameCol.author_name LinesSubset.total) ∧
    (contributorLinesSums
      (scopedCommits commitsAbsenceCase 0 0 DatetimeCol.authored_datetime)
      NameCol.author_name LinesSubset.total = [] →
      factorOfSubset
        (compute_contributor_absence_factor commitsAbsenceCase 0 0
          NameCol.author_name DatetimeCol.authored_datetime)
        LinesSubset.total = 0) ∧
    (contributorLinesSums
      (scopedCommits commitsAbsenceCase 0 0 DatetimeCol.authored_datetime)
      NameCol.author_name LinesSubset.total ≠ [] →
      1 ≤ factorOfSubset
        (compute_contributor_absence_factor commitsAbsenceCase 0 0
          NameCol.author_name DatetimeCol.authored_datetime)
        LinesSubset.total ∧
      factorOfSubset
        (compute_contributor_absence_factor commitsAbsenceCase 0 0
          NameCol.author_name DatetimeCol.authored_datetime)
        LinesSubset.total ≤
        (contributorLinesSums
          (scopedCommits commitsAbsenceCase 0 0 DatetimeCol.authored_datetime)
          NameCol.author_name LinesSubset.total).length) ∧
    ((contributorLinesSums
      (scopedCommits commitsAbsenceCase 0 0 DatetimeCol.authored_datetime)
      NameCol.author_name LinesSubset.total).sum : ℚ) / 2 ≤
      (((sortDescending (contributorLinesSums
        (scopedCommits commitsAbsenceCase 0 0 DatetimeCol.authored_datetime)
        NameCol.author_name LinesSubset.total)).take
        (factorOfSubset
          (compute_contributor_absence_factor commitsAbsenceCase 0 0
            NameCol.author_name DatetimeCol.authored_datetime)
          LinesSubset.total)).sum : ℚ) ∧
    (∀ j, 1 ≤ j →
      j < factorOfSubset
        (compute_contributor_absence_factor commitsAbsenceCase 0 0
          NameCol.author_name DatetimeCol.authored_datetime)
        LinesSubset.total →
      (((sortDescending (contributorLinesSums
        (scopedCommits commitsAbsenceCase 0 0 DatetimeCol.authored_datetime)
        NameCol.author_name LinesSubset.total)).take j).sum : ℚ) <
        ((contributorLinesSums
          (scopedCommits commitsAbsenceCase 0 0 DatetimeCol.authored_datetime)
          NameCol.author_name LinesSubset.total).sum : ℚ) / 2) :=
  C6_absence_factor commitsAbsenceCase 0 0 NameCol.author_name
    DatetimeCol.authored_datetime LinesSubset.total _ rfl _ rfl

theorem updateCounters_consistent (classify : String → FileType)
    (cnt : CommitCounters) (fname : String) (fs : FileStat)
    (h : CountersConsistent cnt) :
    CountersConsistent (updateCounters classify cnt fname fs) := by
  obtain ⟨h1, h2, h3, h4⟩ := h
  rcases hcl : classify (pathName fname) <;>
    refine ⟨?_, ?_, ?_, ?_⟩ <;>
      simp [updateCounters, hcl] <;> omega

theorem foldCounters_consistent (classify : String → FileType)
    (files : List (String × FileStat)) :
    ∀ cnt : CommitCounters, CountersConsistent cnt →
      CountersConsistent
        (files.foldl (fun acc p => updateCounters classify acc p.1 p.2) cnt) := by
  induction files with
  | nil => intro cnt h; exact h
  | cons p ps ih =>
    intro cnt h
    exact ih _ (updateCounters_consistent classify cnt p.1 p.2 h)

/-- C3: every `CommitSummary` row produced by `parse_commits` satisfies
`total_X = programming_X + markup_X + prose_X + data_X + unknown_X`
exactly, in integer arithmetic, for each metric
X in files_changed, additions, deletions, lines_changed — for any
classifier and any input history. -/
theorem C3_rollup_consistency (classify : String → FileType)
    (commits : List RawCommit) (s : CommitSummary)
    (hs : s ∈ (parse_commits classify commits).commit_summaries) :
    s.total_files_changed =
      s.programming_files_changed + s.markup_files_changed +
      s.prose_files_changed + s.data_files_changed +
      s.unknown_files_changed ∧
    s.total_additions =
      s.programming_additions + s.markup_additions +
      s.prose_additions + s.data_additions + s.unknown_additions ∧
    s.total_deletions =
      s.programming_deletions + s.markup_deletions +
      s.prose_deletions + s.data_deletions + s.unknown_deletions ∧
    s.total_lines_changed =
      s.programming_lines_changed + s.markup_lines_changed +
      s.prose_lines_changed + s.data_lines_changed +
      s.unknown_lines_changed := by
  simp only [parse_commits, List.mem_map] at hs
  obtain ⟨c, _, rfl⟩ := hs
  have hinit : CountersConsistent initCounters := by
    refine ⟨rfl, rfl, rfl, rfl⟩
  have h := foldCounters_consistent classify c.files initCounters hinit
  exact h

/-- C3 witness: the roll-up consistency applied to a one-commit history
with one programming and one prose file under a concrete classifier. -/
theorem C3_rollup_consistency_witness :
    (commitSummaryOf demoClassify demoRawCommit ∈
      (parse_commits demoClassify [demoRawCommit]).commit_summaries) ∧
    ((commitSummaryOf demoClassify demoRawCommit).total_files_changed =
      (commitSummaryOf demoClassify demoRawCommit).programming_files_changed +
      (commitSummaryOf demoClassify demoRawCommit).markup_files_changed +
      (commitSummaryOf demoClassify demoRawCommit).prose_files_changed +
      (commitSummaryOf demoClassify demoRawCommit).data_files_changed +
      (commitSummaryOf demoClassify demoRawCommit).unknown_files_changed ∧
    (commitSummaryOf demoClassify demoRawCommit).total_additions =
      (commitSummaryOf demoClassify demoRawCommit).programming_additions +
      (commitSummaryOf demoClassify demoRawCommit).markup_additions +
      (commitSummaryOf demoClassify demoRawCommit).prose_additions +
      (commitSummaryOf demoClassify demoRawCommit).data_additions +
      (commitSummaryOf demoClassify demoRawCommit).unknown_additions ∧
    (commitSummaryOf demoClassify demoRawCommit).total_deletions =
      (commitSummaryOf demoClassify demoRawCommit).programming_deletions +
      (commitSummaryOf demoClassify demoRawCommit).markup_deletions +
      (commitSummaryOf demoClassify demoRawCommit).prose_deletions +
      (commitSummaryOf demoClassify demoRawCommit).data_deletions +
      (commitSummaryOf demoClassify demoRawCommit).unknown_deletions ∧
    (commitSummaryOf demoClassify demoRawCommit).total_lines_changed =
      (commitSummaryOf demoClassify demoRawCommit).programming_lines_changed +
      (commitSummaryOf demoClassify demoRawCommit).markup_lines_changed +
      (commitSummaryOf demoClassify demoRawCommit).prose_lines_changed +
      (commitSummaryOf demoClassify demoRawCommit).data_lines_changed +
      (commitSummaryOf demoClassify demoRawCommit).unknown_lines_changed) :=
  ⟨by decide,
    C3_rollup_consistency demoClassify [demoRawCommit]
      (commitSummaryOf demoClassify demoRawCommit) (by decide)⟩

theorem updateCounters_total_files (classify : String → FileType)
    (cnt : CommitCounters) (fname : String) (fs : FileStat) :
    (updateCounters classify cnt fname fs).total_files_changed =
      cnt.total_files_changed + 1 := by
  rcases hcl : classify (pathName fname) <;> simp [updateCounters, hcl]

theorem foldCounters_total_files (classify : String → FileType)
    (files : List (String × FileStat)) :
    ∀ cnt : CommitCounters,
      (files.foldl (fun acc p => updateCounters classify acc p.1 p.2)
        cnt).total_files_changed = cnt.total_files_changed + files.length := by
  induction files with
  | nil => intro cnt; simp
  | cons p ps ih =>
    intro cnt
    simp only [List.foldl_cons, ih, updateCounters_total_files,
      List.length_cons]
    omega

theorem commitSummaryOf_total_files (classify : String → FileType)
    (c : RawCommit) :
    (commitSummaryOf classify c).total_files_changed = c.files.length := by
  simpa [commitSummaryOf, commitCounters, initCounters] using
    foldCounters_total_files classify c.files initCounters

theorem commitDeltas_hash (classify : String → FileType) (c : RawCommit)
    (d : PerFileCommitDelta) (hd : d ∈ commitDeltas classify c) :
    d.commit_hash = c.commit_hash := by
  simp only [commitDeltas, List.mem_map] at hd
  obtain ⟨p, _, rfl⟩ := hd
  rfl

theorem filter_hash_flatMap_zero (classify : String → FileType)
    (cs : List RawCommit) (h : String)
    (hne : ∀ c ∈ cs, c.commit_hash ≠ h) :
    ((cs.flatMap (commitDeltas classify)).filter
      (fun d => d.commit_hash == h)).length = 0 := by
  induction cs with
  | nil => rfl
  | cons a as ih =>
    rw [List.flatMap_cons, List.filter_append, List.length_append]
    have h1 : ((commitDeltas classify a).filter
        (fun d => d.commit_hash == h)).length = 0 := by
      rw [List.length_eq_zero, List.filter_eq_nil_iff]
      intro d hd
      have := commitDeltas_hash classify a d hd
      simp only [beq_iff_eq, this]
      exact hne a (List.mem_cons_self a as)
    have h2 := ih (fun c hc => hne c (List.mem_cons_of_mem a hc))
    omega

theorem filter_hash_flatMap (classify : String → FileType)
    (cs : List RawCommit)
    (hnd : (cs.map (fun c => c.commit_hash)).Nodup)
    (c : RawCommit) (hc : c ∈ cs) :
    ((cs.flatMap (commitDeltas classify)).filter
      (fun d => d.commit_hash == c.commit_hash)).length = c.files.length := by
  induction cs with
  | nil => cases hc
  | cons a as ih =>
    rw [List.map_cons, List.nodup_cons] at hnd
    rw [List.flatMap_cons, List.filter_append, List.length_append]
    rcases List.mem_cons.mp hc with rfl | hc'
    · have h1 : (commitDeltas classify c).filter
          (fun d => d.commit_hash == c.commit_hash) =
            commitDeltas classify c := by
        rw [List.filter_eq_self]
        intro d hd
        simp [commitDeltas_hash classify c d hd]
      have h2 : ((as.flatMap (commitDeltas classify)).filter
          (fun d => d.commit_hash == c.commit_hash)).length = 0 := by
        apply filter_hash_flatMap_zero
        intro b hb hbc
        exact hnd.1 (hbc ▸ List.mem_map_of_mem (fun x => x.commit_hash) hb)
      rw [h1, h2]
      simp [commitDeltas]
    · have hane : a.commit_hash ≠ c.commit_hash := by
        intro hac
        exact hnd.1 (hac ▸ List.mem_map_of_mem (fun x => x.commit_hash) hc')
      have h1 : ((commitDeltas classify a).filter
          (fun d => d.commit_hash == c.commit_hash)).length = 0 := by
        rw [List.length_eq_zero, List.filter_eq_nil_iff]
        intro d hd
        simp [commitDeltas_hash classify a d hd, hane]
      have h2 := ih hnd.2 hc'
      omega

/-- C10: for a history with pairwise-distinct commit hashes, the number of
`PerFileCommitDelta` rows carrying a summary row's commit hash equals that
summary row's `total_files_changed` — the per-file and per-commit tables
stay row-correspondence-consistent by commit hash. -/
theorem C10_row_correspondence (classify : String → FileType)
    (commits : List RawCommit)
    (hnd : (commits.map (fun c => c.commit_hash)).Nodup)
    (s : CommitSummary)
    (hs : s ∈ (parse_commits classify commits).commit_summaries) :
    ((parse_commits classify commits).per_file_commit_deltas.filter
      (fun d => d.commit_hash == s.commit_hash)).length =
      s.total_files_changed := by
  simp only [parse_commits, List.mem_map] at hs
  obtain ⟨c, hc, rfl⟩ := hs
  have h1 : (commitSummaryOf classify c).commit_hash = c.commit_hash := rfl
  simp only [parse_commits, h1, commitSummaryOf_total_files]
  exact filter_hash_flatMap classify commits hnd c hc

/-- C10 witness: the row correspondence applied to a one-commit history
with two files. -/
theorem C10_row_correspondence_witness :
    ((([demoRawCommit] : List RawCommit).map
      (fun c => c.commit_hash)).Nodup) ∧
    (commitSummaryOf demoClassify demoRawCommit ∈
      (parse_commits demoClassify [demoRawCommit]).commit_summaries) ∧
    ((parse_commits demoClassify [demoRawCommit]).per_file_commit_deltas.filter
      (fun d => d.commit_hash ==
        (commitSummaryOf demoClassify demoRawCommit).commit_hash)).length =
      (commitSummaryOf demoClassify demoRawCommit).total_files_changed :=
  ⟨by decide, by decide,
    C10_row_correspondence demoClassify [demoRawCommit] (by decide)
      (commitSummaryOf demoClassify demoRawCommit) (by decide)⟩

theorem mem_of_two_distinct_filetypes (l : List FileType) (hnd : l.Nodup)
    (h : 1 < l.length) :
    FileType.prose ∈ l ∨ FileType.data ∈ l ∨ FileType.markup ∈ l ∨
      FileType.programming ∈ l := by
  match l, h with
  | a :: b :: rest, _ =>
    have hab : a ≠ b := by
      rw [List.nodup_cons] at hnd
      intro hab
      exact hnd.1 (hab ▸ List.mem_cons_self b rest)
    cases a <;> cases b <;> simp_all

theorem get_file_type_tiebreak_eval (table : List FormatRow) (fp : String)
    (hfn : ((table.filter (fun r =>
      r.filename == strLower (pathName fp))).map (fun r => r.type)
        ).dedup.length ≠ 1)
    (hlen : 1 < ((table.filter (fun r =>
      r.extension == strLower (pathSuffix fp))).map (fun r => r.type)
        ).dedup.length) :
    get_file_type table fp =
      (priorityOrder.find? (fun t =>
        ((table.filter (fun r =>
          r.extension == strLower (pathSuffix fp))).map (fun r => r.type)
            ).dedup.contains t)).getD FileType.unknown := by
  have hne : (table.filter (fun r =>
      r.extension == strLower (pathSuffix fp))).isEmpty ≠ true := by
    intro hemp
    have hnil : (table.filter (fun r =>
        r.extension == strLower (pathSuffix fp))) = [] := by
      simpa using hemp
    rw [hnil] at hlen
    simp at hlen
  simp only [get_file_type]
  rw [if_neg hfn, if_neg (by simpa using hne), if_neg (by omega), if_pos hlen]

/-- C7: for every lookup table and every filename, `get_file_type` returns
one of the five closed categories (it is a total function with no failure
path), and whenever the lookup reaches the extension stage (the exact
filename match did not resolve to a single category) and the extension
matches more than one distinct category, the result is the first of
prose, data, markup, programming present in the match set. -/
theorem C7_classifier_total_and_tiebreak (table : List FormatRow)
    (fp : String) :
    (get_file_type table fp = FileType.programming ∨
     get_file_type table fp = FileType.markup ∨
     get_file_type table fp = FileType.prose ∨
     get_file_type table fp = FileType.data ∨
     get_file_type table fp = FileType.unknown) ∧
    (∀ mTypes : List FileType,
      mTypes = ((table.filter (fun r =>
        r.extension == strLower (pathSuffix fp))).map (fun r => r.type)).dedup →
      ((table.filter (fun r =>
        r.filename == strLower (pathName fp))).map (fun r => r.type)
          ).dedup.length ≠ 1 →
      1 < mTypes.length →
      ((FileType.prose ∈ mTypes ∧ get_file_type table fp = FileType.prose) ∨
       (FileType.prose ∉ mTypes ∧ FileType.data ∈ mTypes ∧
         get_file_type table fp = FileType.data) ∨
       (FileType.prose ∉ mTypes ∧ FileType.data ∉ mTypes ∧
         FileType.markup ∈ mTypes ∧
         get_file_type table fp = FileType.markup) ∨
       (FileType.prose ∉ mTypes ∧ FileType.data ∉ mTypes ∧
         FileType.markup ∉ mTypes ∧ FileType.programming ∈ mTypes ∧
         get_file_type table fp = FileType.programming))) := by
  constructor
  · rcases h : get_file_type table fp <;> tauto
  · intro mTypes hmt hfn hlen
    have heval := get_file_type_tiebreak_eval table fp hfn (hmt ▸ hlen)
    rw [← hmt] at heval
    have hnd : mTypes.Nodup := hmt ▸ List.nodup_dedup _
    by_cases hp : FileType.prose ∈ mTypes
    · left
      refine ⟨hp, ?_⟩
      rw [heval, priorityOrder, List.find?_cons_of_pos _ (by simpa using hp)]
      rfl
    · by_cases hd : FileType.data ∈ mTypes
      · right; left
        refine ⟨hp, hd, ?_⟩
        rw [heval, priorityOrder, List.find?_cons_of_neg _ (by simpa using hp),
          List.find?_cons_of_pos _ (by simpa using hd)]
        rfl
      · by_cases hm : FileType.markup ∈ mTypes
        · right; right; left
          refine ⟨hp, hd, hm, ?_⟩
          rw [heval, priorityOrder,
            List.find?_cons_of_neg _ (by simpa using hp),
            List.find?_cons_of_neg _ (by simpa using hd),
            List.find?_cons_of_pos _ (by simpa using hm)]
          rfl
        · have hprog : FileType.programming ∈ mTypes := by
            rcases mem_of_two_distinct_filetypes mTypes hnd hlen with
              h | h | h | h
            · exact absurd h hp
            · exact absurd h hd
            · exact absurd h hm
            · exact h
          right; right; right
          refine ⟨hp, hd, hm, hprog, ?_⟩
          rw [heval, priorityOrder,
            List.find?_cons_of_neg _ (by simpa using hp),
            List.find?_cons_of_neg _ (by simpa using hd),
            List.find?_cons_of_neg _ (by simpa using hm),
            List.find?_cons_of_pos _ (by simpa using hprog)]
          rfl

/-- C7 witness: the classifier theorem applied to a table in which `.yml`
maps to both markup and data, on the mixed-case filename `config.YML`. -/
theorem C7_classifier_witness :
    (((demoFormatTable.filter (fun r =>
      r.extension == strLower (pathSuffix "config.YML"))).map (fun r => r.type)
        ).dedup =
      ((demoFormatTable.filter (fun r =>
        r.extension == strLower (pathSuffix "config.YML"))).map (fun r => r.type)
          ).dedup) ∧
    (((demoFormatTable.filter (fun r =>
      r.filename == strLower (pathName "config.YML"))).map (fun r => r.type)
        ).dedup.length ≠ 1) ∧
    (1 < ((demoFormatTable.filter (fun r =>
      r.extension == strLower (pathSuffix "config.YML"))).map (fun r => r.type)
        ).dedup.length) ∧
    ((FileType.prose ∈ ((demoFormatTable.filter (fun r =>
        r.extension == strLower (pathSuffix "config.YML"))).map
          (fun r => r.type)).dedup ∧
       get_file_type demoFormatTable "config.YML" = FileType.prose) ∨
     (FileType.prose ∉ ((demoFormatTable.filter (fun r =>
        r.extension == strLower (pathSuffix "config.YML"))).map
          (fun r => r.type)).dedup ∧
       FileType.data ∈ ((demoFormatTable.filter (fun r =>
        r.extension == strLower (pathSuffix "config.YML"))).map
          (fun r => r.type)).dedup ∧
       get_file_type demoFormatTable "config.YML" = FileType.data) ∨
     (FileType.prose ∉ ((demoFormatTable.filter (fun r =>
        r.extension == strLower (pathSuffix "config.YML"))).map
          (fun r => r.type)).dedup ∧
       FileType.data ∉ ((demoFormatTable.filter (fun r =>
        r.extension == strLower (pathSuffix "config.YML"))).map
          (fun r => r.type)).dedup ∧
       FileType.markup ∈ ((demoFormatTable.filter (fun r =>
        r.extension == strLower (pathSuffix "config.YML"))).map
          (fun r => r.type)).dedup ∧
       get_file_type demoFormatTable "config.YML" = FileType.markup) ∨
     (FileType.prose ∉ ((demoFormatTable.filter (fun r =>
        r.extension == strLower (pathSuffix "config.YML"))).map
          (fun r => r.type)).dedup ∧
       FileType.data ∉ ((demoFormatTable.filter (fun r =>
        r.extension == strLower (pathSuffix "config.YML"))).map
          (fun r => r.type)).dedup ∧
       FileType.markup ∉ ((demoFormatTable.filter (fun r =>
        r.extension == strLower (pathSuffix "config.YML"))).map
          (fun r => r.type)).dedup ∧
       FileType.programming ∈ ((demoFormatTable.filter (fun r =>
        r.extension == strLower (pathSuffix "config.YML"))).map
          (fun r => r.type)).dedup ∧
       get_file_type demoFormatTable "config.YML" = FileType.programming)) :=
  ⟨rfl, by decide, by decide,
    (C7_classifier_total_and_tiebreak demoFormatTable "config.YML").2
      _ rfl (by decide) (by decide)⟩

theorem nPeriods_cast (td s e : Int) (htd : 0 < td) (hse : s ≤ e) :
    (nPeriods td s e : ℤ) = Int.ceil ((e - s : ℚ) / (td : ℚ)) := by
  unfold nPeriods
  rw [Int.toNat_of_nonneg]
  apply Int.ceil_nonneg
  apply div_nonneg
  · rw [sub_nonneg]
    exact_mod_cast hse
  · exact_mod_cast le_of_lt htd

theorem windowMemB_iff (col : DatetimeCol) (td s : Int) (i : Nat)
    (c : CommitSummary) :
    windowMemB col td s i c = true ↔
      (s + (i : ℤ) * td ≤ dtOf col c ∧
        dtOf col c < s + ((i : ℤ) + 1) * td) := by
  simp only [windowMemB, Bool.and_eq_true, decide_eq_true_eq]
  constructor <;> rintro ⟨h1, h2⟩ <;> exact ⟨h1, by linarith⟩

theorem windowMemB_boundary (col : DatetimeCol) (td s : Int) (htd : 0 < td)
    (i : Nat) (c : CommitSummary) (hdt : dtOf col c = s + (i : ℤ) * td) :
    windowMemB col td s i c = true ∧
      ∀ j : Nat, j ≠ i → windowMemB col td s j c = false := by
  constructor
  · rw [windowMemB_iff]
    refine ⟨le_of_eq hdt.symm, ?_⟩
    rw [hdt]
    have h0 : (0 : ℤ) < td := htd
    nlinarith
  · intro j hj
    rw [Bool.eq_false_iff]
    intro htrue
    rw [windowMemB_iff] at htrue
    obtain ⟨h1, h2⟩ := htrue
    rw [hdt] at h1 h2
    rcases Nat.lt_or_ge j i with hji | hji
    · have hc : ((j : ℤ) + 1) ≤ (i : ℤ) := by exact_mod_cast hji
      have hm := mul_le_mul_of_nonneg_right hc (le_of_lt htd)
      linarith
    · have hij : i < j := by omega
      have hc : ((i : ℤ) + 1) ≤ (j : ℤ) := by exact_mod_cast hij
      have hm := mul_le_mul_of_nonneg_right hc (le_of_lt htd)
      linarith

/-- C1: with a positive span and start ≤ end, `get_periods_changed`
succeeds and produces exactly `n = ceil((end - start)/span)` windows:
every one of the twelve output series has length exactly `n`; window `i`
covers the half-open interval `[start + i*span, start + (i+1)*span)`; a
commit timestamped exactly at a window's start boundary belongs to that
window and to no other (in particular not the previous one); and a window
containing no commits contributes zero-valued entries to every series
rather than being omitted. -/
theorem C1_window_partition (commits : List CommitSummary) (td s e : Int)
    (col : DatetimeCol) (htd : 0 < td) (hse : s ≤ e) :
    get_periods_changed commits td s e col =
      Except.ok (periodsResult commits td s e col) ∧
    ((nPeriods td s e : ℤ) = Int.ceil ((e - s : ℚ) / (td : ℚ))) ∧
    ((periodsResult commits td s e col).periods_changed_binary.length =
        nPeriods td s e ∧
      (periodsResult commits td s e col
        ).periods_total_lines_changed_count.length = nPeriods td s e ∧
      (∀ ft : FileType,
        (binarySeriesOfType (periodsResult commits td s e col) ft).length =
          nPeriods td s e ∧
        (countSeriesOfType (periodsResult commits td s e col) ft).length =
          nPeriods td s e)) ∧
    (∀ (i : Nat) (c : CommitSummary),
      windowMemB col td s i c = true ↔
        (s + (i : ℤ) * td ≤ dtOf col c ∧
          dtOf col c < s + ((i : ℤ) + 1) * td)) ∧
    (∀ (i : Nat) (c : CommitSummary), dtOf col c = s + (i : ℤ) * td →
      windowMemB col td s i c = true ∧
      ∀ j : Nat, j ≠ i → windowMemB col td s j c = false) ∧
    (∀ i : Nat, i < nPeriods td s e →
      (∀ c ∈ commits, windowMemB col td s i c = false) →
      (periodsResult commits td s e col).periods_changed_binary.getD i 0 = 0 ∧
      (periodsResult commits td s e col
        ).periods_total_lines_changed_count.getD i 0 = 0 ∧
      (∀ ft : FileType,
        (binarySeriesOfType (periodsResult commits td s e col) ft).getD i 0
          = 0 ∧
        (countSeriesOfType (periodsResult commits td s e col) ft).getD i 0
          = 0)) := by
  refine ⟨by simp [get_periods_changed, ne_of_gt htd],
    nPeriods_cast td s e htd hse, ⟨?_, ?_, ?_⟩, ?_, ?_, ?_⟩
  · simp [periodsResult]
  · simp [periodsResult]
  · intro ft
    cases ft <;>
      constructor <;> simp [periodsResult, binarySeriesOfType, countSeriesOfType]
  · intro i c
    exact windowMemB_iff col td s i c
  · intro i c hdt
    exact windowMemB_boundary col td s htd i c hdt
  · intro i hi hnone
    have hsub : windowSubset commits col td s i = [] := by
      rw [windowSubset, List.filter_eq_nil_iff]
      intro c hc
      simp [hnone c hc]
    refine ⟨?_, ?_, ?_⟩
    · simp [periodsResult, getD_range_map _ _ _ hi, totalBinaryAt, hsub,
        List.getElem?_range hi]
    · simp [periodsResult, getD_range_map _ _ _ hi, totalCountAt, hsub,
        List.getElem?_range hi]
    · intro ft
      constructor <;> cases ft <;>
        simp [periodsResult, binarySeriesOfType, countSeriesOfType,
          getD_range_map _ _ _ hi, binaryAndCountFromFileSubset, hsub,
          List.getElem?_range hi]

/-- C1 witness: the window-partition theorem applied at span 1 over the
degenerate range `[0, 0]` on the empty table (the succeed-and-shape part
of its conclusion, with both preconditions discharged). -/
theorem C1_window_partition_witness :
    (0 : Int) < 1 ∧ (0 : Int) ≤ 0 ∧
    get_periods_changed [] 1 0 0 DatetimeCol.committed_datetime =
      Except.ok (periodsResult [] 1 0 0 DatetimeCol.committed_datetime) :=
  ⟨by decide, by decide,
    (C1_window_partition [] 1 0 0 DatetimeCol.committed_datetime
      (by decide) (by decide)).1⟩

theorem sum_get_cast (arr : List Nat) :
    ∑ i : Fin arr.length, (arr.get i : ℝ) = (arr.sum : ℝ) := by
  conv_rhs => rw [← List.finRange_map_get arr]
  rw [Fin.sum_univ_def, Nat.cast_list_sum, List.map_map]
  rfl

theorem get_le_sum (arr : List Nat) (i : Fin arr.length) :
    arr.get i ≤ arr.sum := by
  induction arr with
  | nil => exact absurd i.isLt (by simp)
  | cons x xs ih =>
    rcases i with ⟨iv, hiv⟩
    cases iv with
    | zero => simp [List.get]
    | succ n =>
      have := ih ⟨n, by simpa using hiv⟩
      simp only [List.get_cons_succ, List.sum_cons] at this ⊢
      omega

theorem sum_pos_of_nonzero (arr : List Nat)
    (h : ∃ i : Fin arr.length, arr.get i ≠ 0) : 0 < arr.sum := by
  obtain ⟨i, hi⟩ := h
  have := get_le_sum arr i
  omega

theorem probOf_nonneg (arr : List Nat) (i : Fin arr.length) :
    0 ≤ probOf arr i := by
  unfold probOf
  positivity

theorem probOf_le_one (arr : List Nat) (hS : 0 < arr.sum)
    (i : Fin arr.length) : probOf arr i ≤ 1 := by
  unfold probOf
  rw [div_le_one (by exact_mod_cast hS)]
  exact_mod_cast get_le_sum arr i

theorem sum_probOf (arr : List Nat) (hS : 0 < arr.sum) :
    ∑ i : Fin arr.length, probOf arr i = 1 := by
  unfold probOf
  rw [← Finset.sum_div, sum_get_cast,
    div_self (by exact_mod_cast Nat.pos_iff_ne_zero.mp hS)]

theorem computeEntropy_eq_negMulLog (arr : List Nat) :
    computeEntropy arr =
      (∑ i : Fin arr.length, Real.negMulLog (probOf arr i)) / Real.log 2 := by
  rw [computeEntropy, Finset.sum_div, ← Finset.sum_neg_distrib]
  apply Finset.sum_congr rfl
  intro i _
  rw [Real.negMulLog, Real.logb]
  ring

theorem computeEntropy_support (arr : List Nat) :
    computeEntropy arr =
      - ∑ i ∈ Finset.univ.filter (fun i : Fin arr.length => arr.get i ≠ 0),
          probOf arr i * Real.logb 2 (probOf arr i) := by
  rw [computeEntropy]
  congr 1
  symm
  apply Finset.sum_filter_of_ne
  intro i _ hterm
  intro hzero
  apply hterm
  unfold probOf
  rw [hzero]
  simp

theorem computeEntropy_nonneg (arr : List Nat)
    (h : ∃ i : Fin arr.length, arr.get i ≠ 0) : 0 ≤ computeEntropy arr := by
  have hS := sum_pos_of_nonzero arr h
  rw [computeEntropy, neg_nonneg]
  apply Finset.sum_nonpos
  intro i _
  apply mul_nonpos_of_nonneg_of_nonpos (probOf_nonneg arr i)
  exact Real.logb_nonpos (by norm_num) (probOf_nonneg arr i)
    (probOf_le_one arr hS i)

theorem computeEntropy_le_logb (arr : List Nat)
    (h : ∃ i : Fin arr.length, arr.get i ≠ 0) :
    computeEntropy arr ≤ Real.logb 2 arr.length := by
  have hS := sum_pos_of_nonzero arr h
  obtain ⟨i0, _⟩ := h
  have hn : 0 < arr.length := i0.pos
  have hnR : (0 : ℝ) < (arr.length : ℝ) := by exact_mod_cast hn
  have h₀ : ∀ i ∈ (Finset.univ : Finset (Fin arr.length)),
      (0 : ℝ) ≤ (arr.length : ℝ)⁻¹ := fun _ _ => by positivity
  have h₁ : ∑ _i : Fin arr.length, (arr.length : ℝ)⁻¹ = 1 := by
    rw [Finset.sum_const, Finset.card_univ, Fintype.card_fin, nsmul_eq_mul,
      mul_inv_cancel₀ (ne_of_gt hnR)]
  have hmem : ∀ i ∈ (Finset.univ : Finset (Fin arr.length)),
      probOf arr i ∈ Set.Ici (0 : ℝ) := fun i _ => probOf_nonneg arr i
  have jensen := Real.concaveOn_negMulLog.le_map_sum h₀ h₁ hmem
  have hrhs : ∑ i : Fin arr.length, (arr.length : ℝ)⁻¹ • probOf arr i =
      (arr.length : ℝ)⁻¹ := by
    simp only [smul_eq_mul]
    rw [← Finset.mul_sum, sum_probOf arr hS, mul_one]
  rw [hrhs] at jensen
  have hlhs : ∑ i : Fin arr.length,
      (arr.length : ℝ)⁻¹ • Real.negMulLog (probOf arr i) =
      (arr.length : ℝ)⁻¹ *
        ∑ i : Fin arr.length, Real.negMulLog (probOf arr i) := by
    simp only [smul_eq_mul]
    rw [← Finset.mul_sum]
  rw [hlhs] at jensen
  have hval : Real.negMulLog ((arr.length : ℝ)⁻¹) =
      (arr.length : ℝ)⁻¹ * Real.log (arr.length : ℝ) := by
    rw [Real.negMulLog, Real.log_inv]
    ring
  rw [hval] at jensen
  have hsum_le : ∑ i : Fin arr.length, Real.negMulLog (probOf arr i) ≤
      Real.log (arr.length : ℝ) := by
    have := (mul_le_mul_left (inv_pos.mpr hnR)).mp jensen
    exact this
  rw [computeEntropy_eq_negMulLog, Real.logb]
  rw [div_le_div_iff_of_pos_right (Real.log_pos (by norm_num))]
  exact hsum_le

theorem computeEntropy_uniform (arr : List Nat)
    (h : ∃ i : Fin arr.length, arr.get i ≠ 0)
    (huni : ∀ i j : Fin arr.length, arr.get i = arr.get j) :
    computeEntropy arr = Real.logb 2 arr.length := by
  obtain ⟨i0, hi0⟩ := h
  have hn : 0 < arr.length := i0.pos
  have hnR : (0 : ℝ) < (arr.length : ℝ) := by exact_mod_cast hn
  have hcR : (0 : ℝ) < (arr.get i0 : ℝ) := by
    exact_mod_cast Nat.pos_of_ne_zero hi0
  have hsum : (arr.sum : ℝ) = (arr.length : ℝ) * (arr.get i0 : ℝ) := by
    rw [← sum_get_cast]
    have : ∀ i ∈ (Finset.univ : Finset (Fin arr.length)),
        (arr.get i : ℝ) = (arr.get i0 : ℝ) := by
      intro i _
      exact_mod_cast congrArg Nat.cast (huni i i0)
    rw [Finset.sum_congr rfl this, Finset.sum_const, Finset.card_univ,
      Fintype.card_fin, nsmul_eq_mul]
  have hp : ∀ i : Fin arr.length, probOf arr i = (arr.length : ℝ)⁻¹ := by
    intro i
    unfold probOf
    rw [show (arr.get i : ℝ) = (arr.get i0 : ℝ) from by
          exact_mod_cast congrArg Nat.cast (huni i i0),
      hsum, mul_comm, ← div_div, div_self (ne_of_gt hcR), one_div]
  rw [computeEntropy]
  simp only [hp]
  rw [Finset.sum_const, Finset.card_univ, Fintype.card_fin, nsmul_eq_mul,
    Real.logb_inv]
  rw [show (arr.length : ℝ) * ((arr.length : ℝ)⁻¹ * -Real.logb 2 (arr.length : ℝ))
      = -((arr.length : ℝ) * (arr.length : ℝ)⁻¹) * Real.logb 2 (arr.length : ℝ)
    from by ring]
  rw [mul_inv_cancel₀ (ne_of_gt hnR)]
  ring

theorem computeEntropy_single (arr : List Nat)
    (h : ∃ i : Fin arr.length, arr.get i ≠ 0 ∧
      ∀ j : Fin arr.length, j ≠ i → arr.get j = 0) :
    computeEntropy arr = 0 := by
  obtain ⟨i, hi, hz⟩ := h
  have hsumr : (arr.sum : ℝ) = (arr.get i : ℝ) := by
    rw [← sum_get_cast]
    apply Finset.sum_eq_single i
    · intro j _ hj
      rw [hz j hj]
      exact Nat.cast_zero
    · intro habs
      exact absurd (Finset.mem_univ i) habs
  have hpi : probOf arr i = 1 := by
    unfold probOf
    rw [hsumr, div_self (ne_of_gt (by exact_mod_cast Nat.pos_of_ne_zero hi))]
  rw [computeEntropy]
  rw [Finset.sum_eq_single i]
  · rw [hpi, Real.logb_one, mul_zero, neg_zero]
  · intro j _ hj
    have : probOf arr j = 0 := by
      unfold probOf
      rw [hz j hj]
      simp
    rw [this, zero_mul]
  · intro habs
    exact absurd (Finset.mem_univ i) habs

/-- C5: for a non-negative integer array with at least one nonzero entry,
`_compute_entropy` equals the Shannon formula `-Σ p_i·log2 p_i` restricted
to the nonzero entries (zero-probability terms contribute 0), lies in
`[0, log2 n]`, equals exactly `log2 n` on a uniform nonzero array, and
equals 0 when exactly one entry is nonzero. -/
theorem C5_entropy_properties (arr : List Nat)
    (h : ∃ i : Fin arr.length, arr.get i ≠ 0) :
    computeEntropy arr =
      - ∑ i ∈ Finset.univ.filter (fun i : Fin arr.length => arr.get i ≠ 0),
          probOf arr i * Real.logb 2 (probOf arr i) ∧
    0 ≤ computeEntropy arr ∧
    computeEntropy arr ≤ Real.logb 2 arr.length ∧
    ((∀ i j : Fin arr.length, arr.get i = arr.get j) →
      computeEntropy arr = Real.logb 2 arr.length) ∧
    ((∃ i : Fin arr.length, arr.get i ≠ 0 ∧
        ∀ j : Fin arr.length, j ≠ i → arr.get j = 0) →
      computeEntropy arr = 0) :=
  ⟨computeEntropy_support arr, computeEntropy_nonneg arr h,
    computeEntropy_le_logb arr h,
    fun huni => computeEntropy_uniform arr h huni,
    fun hsingle => computeEntropy_single arr hsingle⟩

/-- C5 witness: the entropy properties applied to the uniform array
`[1, 1]`. -/
theorem C5_entropy_properties_witness :
    (∃ i : Fin ([1, 1] : List Nat).length, ([1, 1] : List Nat).get i ≠ 0) ∧
    0 ≤ computeEntropy [1, 1] ∧
    computeEntropy [1, 1] ≤ Real.logb 2 (([1, 1] : List Nat).length) :=
  ⟨⟨⟨0, by decide⟩, by decide⟩,
    (C5_entropy_properties [1, 1] ⟨⟨0, by decide⟩, by decide⟩).2.1,
    (C5_entropy_properties [1, 1] ⟨⟨0, by decide⟩, by decide⟩).2.2.1⟩

/-- C4 (code bug): on a table whose per-window programming lines series is
`[1, 1]` and prose series is `[1, 0]`, the `prose_lines_changed_entropy`
reported by `compute_timeseries_metrics` is the entropy of the
*programming* series (value 1), not the entropy of the prose series
(value 0): the source wires both prose lines-changed statistics to
`periods_programming_lines_changed_count`. -/
theorem C4_prose_statistics_bug :
    (timeseriesMetricsOfPeriods (periodsResult commitsProseCase 10 0 20
        DatetimeCol.committed_datetime)).prose_lines_changed_entropy =
      computeEntropy (periodsResult commitsProseCase 10 0 20
        DatetimeCol.committed_datetime
          ).periods_programming_lines_changed_count ∧
    (periodsResult commitsProseCase 10 0 20 DatetimeCol.committed_datetime
      ).periods_programming_lines_changed_count = [1, 1] ∧
    (periodsResult commitsProseCase 10 0 20 DatetimeCol.committed_datetime
      ).periods_prose_lines_changed_count = [1, 0] ∧
    computeEntropy [1, 1] = 1 ∧
    computeEntropy [1, 0] = 0 ∧
    (timeseriesMetricsOfPeriods (periodsResult commitsProseCase 10 0 20
        DatetimeCol.committed_datetime)).prose_lines_changed_entropy ≠
      computeEntropy (periodsResult commitsProseCase 10 0 20
        DatetimeCol.committed_datetime).periods_prose_lines_changed_count := by
  have hn : nPeriods 10 0 20 = 2 := by
    apply nPeriods_eq_of_ceil
    norm_num [Int.ceil_eq_iff]
  have hprog : (periodsResult commitsProseCase 10 0 20
      DatetimeCol.committed_datetime
        ).periods_programming_lines_changed_count = [1, 1] := by
    simp only [periodsResult, hn]
    decide
  have hprose : (periodsResult commitsProseCase 10 0 20
      DatetimeCol.committed_datetime
        ).periods_prose_lines_changed_count = [1, 0] := by
    simp only [periodsResult, hn]
    decide
  have hent11 : computeEntropy [1, 1] = 1 := by
    have h := computeEntropy_uniform [1, 1] ⟨⟨0, by decide⟩, by decide⟩
      (by decide)
    rw [h]
    have hlen : ((([1, 1] : List Nat).length : ℕ) : ℝ) = 2 := by norm_num
    rw [hlen]
    exact Real.logb_self_eq_one (by norm_num)
  have hent10 : computeEntropy [1, 0] = 0 :=
    computeEntropy_single [1, 0] ⟨⟨0, by decide⟩, by decide, by decide⟩
  have hfield : (timeseriesMetricsOfPeriods (periodsResult commitsProseCase
      10 0 20 DatetimeCol.committed_datetime)).prose_lines_changed_entropy =
      computeEntropy (periodsResult commitsProseCase 10 0 20
        DatetimeCol.committed_datetime
          ).periods_programming_lines_changed_count := rfl
  refine ⟨hfield, hprog, hprose, hent11, hent10, ?_⟩
  rw [hfield, hprog, hprose, hent11, hent10]
  norm_num

end RepoStatistics
